import Mathlib

/-!
Shallow embedding of the GEO-checker scoring and signal-extraction engine
(src/checker/app.py).  Machine reals (Python floats holding small decimal
literals) are modelled by `ℚ`; Python dicts of requirements by explicit
structures; fallible parsing by `Option`.  HTML/DOM retrieval and parsing are
external collaborators: extractor functions take the collaborator's output
(anchor href lists, JSON-LD script-block strings, header association lists)
rather than raw HTML.
-/

/-! ## Small Python-style utilities (app.py lines 192-211) -/

/-- app.py `clamp(x, lo, hi) = max(lo, min(hi, x))`. -/
def clamp (x lo hi : ℚ) : ℚ := max lo (min hi x)

/-- Python `str.lower()` restricted to the character repertoire this code base
uses (ASCII plus the Danish letters Æ Ø Å and É); other characters are
unchanged. -/
def pyCharLower (c : Char) : Char :=
  if c = 'Æ' then 'æ'
  else if c = 'Ø' then 'ø'
  else if c = 'Å' then 'å'
  else if c = 'É' then 'é'
  else c.toLower

/-- Python `str.lower()` on a string (see `pyCharLower`). -/
def pyLower (s : String) : String := String.mk (s.data.map pyCharLower)

/-- Python `list(dict.fromkeys(l))`: deduplicate keeping the first occurrence
of each element, preserving order. -/
def pyDedup {α : Type} [DecidableEq α] (l : List α) : List α :=
  l.foldl (fun acc x => if x ∈ acc then acc else acc ++ [x]) []

/-- Python whitespace (`str.strip` / `\s`), ASCII repertoire. -/
def isPyWS (c : Char) : Bool :=
  c = ' ' || c = '\t' || c = '\n' || c = '\r' || c = '\x0c' || c = '\x0b'

/-- Python `str.strip()`: drop leading and trailing whitespace. -/
def pyStrip (s : String) : String :=
  String.mk (((s.data.dropWhile isPyWS).reverse.dropWhile isPyWS).reverse)

/-- Python `s.startswith(pre)`. -/
def strStartsWith (s pre : String) : Bool := pre.data.isPrefixOf s.data

/-- Split a character list at every separator (like `re.split` on a
character class: separators are dropped, empty pieces kept). -/
def splitOnPred (p : Char → Bool) : List Char → List (List Char)
  | [] => [[]]
  | c :: rest =>
    let r := splitOnPred p rest
    if p c then [] :: r
    else
      match r with
      | [] => [[c]]
      | piece :: more => (c :: piece) :: more

/-- Split a string at every character satisfying `p`. -/
def strSplit (p : Char → Bool) (s : String) : List String :=
  (splitOnPred p s.data).map String.mk

/-- Index of the first occurrence of `pat` in `s` (`none` when absent). -/
def findSubIdx : List Char → List Char → Option Nat
  | [], pat => if pat = [] then some 0 else none
  | c :: rest, pat =>
    if pat.isPrefixOf (c :: rest) then some 0
    else (findSubIdx rest pat).map (fun n => n + 1)

/-- Python `sub in s` substring test on strings. -/
def strContains (s sub : String) : Bool := (findSubIdx s.data sub.data).isSome

/-- Insertion step for a stable insertion sort with a boolean `le`. -/
def insertSorted {α : Type} (le : α → α → Bool) (x : α) : List α → List α
  | [] => [x]
  | y :: ys => if le x y then x :: y :: ys else y :: insertSorted le x ys

/-- Stable sort by a boolean `le` (models Python `sorted`/`list.sort`). -/
def sortBy {α : Type} (le : α → α → Bool) (l : List α) : List α :=
  l.foldr (insertSorted le) []

/-- Lexicographic codepoint comparison on character lists. -/
def charsLe : List Char → List Char → Bool
  | [], _ => true
  | _ :: _, [] => false
  | a :: as, b :: bs =>
    if a.val < b.val then true
    else if b.val < a.val then false
    else charsLe as bs

/-- Boolean string comparison used by Python `sorted` on strings
(codepoint-lexicographic, as in Python). -/
def strLe (a b : String) : Bool := charsLe a.data b.data

/-- Python `sorted(set(l))` for a list of strings. -/
def pySortedSet (l : List String) : List String := sortBy strLe (pyDedup l)

/-! ## Robots-directive parsing (app.py lines 369-374) -/

/-- app.py `parse_robots_directives`: split a robots value on commas and
semicolons, strip and lowercase the parts, drop empties, and return the
sorted set. -/
def parse_robots_directives (value : String) : List String :=
  if value = "" then []
  else
    pySortedSet (((strSplit (fun c => c = ',' || c = ';') value).filter
      (fun p => pyStrip p ≠ "")).map (fun p => pyLower (pyStrip p)))

/-! ## Requirements table (app.py lines 1588-1795) -/

/-- app.py `_req(...)` record: one scored requirement. -/
structure Req where
  pillar : String
  label : String
  ok : Bool
  detail : String
  impactPoints : ℚ
deriving DecidableEq

/-- Sum of `impact_points` over the unmet (`ok = false`) requirements
(app.py line 1798). -/
def missingPoints (reqs : List Req) : ℚ :=
  ((reqs.filter (fun r => r.ok = false)).map Req.impactPoints).sum

/-- app.py `_pillar_score`: `clamp(10.0 - missing_points, 0.0, 10.0)`. -/
def pillar_score (reqs : List Req) : ℚ :=
  clamp (10 - missingPoints reqs) 0 10

/-- The leaf signals `score_and_findings` derives from its inputs before the
requirements table is built (app.py lines 1446-1568).  Each field is one of
the Python locals consumed by the `_req(...)` rows. -/
structure ScoreSignals where
  org_obj_found : Bool
  person_obj_found : Bool
  clean_schema_types : List String
  nap_phone : Bool
  nap_email : Bool
  nap_address : Bool
  nap_cvr : Bool
  socials : List String
  has_about : Bool
  has_contact : Bool
  has_privacy : Bool
  author_visible : Bool
  page_type : String
  trusted_out_links : List String
  has_attribution_language : Bool
  word_count : ℕ
  has_process : Bool
  has_pricing : Bool
  usp_count : ℕ
  has_review_platform_signal : Bool
  has_service_area : Bool
  has_nav_dom : Bool
  has_faq_like : Bool
  meta_description : String
  meta_canonical : String
  meta_robots : String
  x_robots_tag : String
  robots_txt_allows : Option Bool
  status : ℤ
  blocked : Bool

/-- app.py line 1562: `has_expert_quotes = bool(re.search(...)) or
(len(trusted_out_links) >= 1)`; the regex hit is the
`has_attribution_language` leaf. -/
def hasExpertQuotes (s : ScoreSignals) : Bool :=
  s.has_attribution_language || decide (s.trusted_out_links.length ≥ 1)

/-- app.py lines 1589-1645: the Entity Authority requirement rows. -/
def entityRequirements (s : ScoreSignals) : List Req :=
  [ ⟨"Entity Authority", "Business entity schema (Organization eller LocalBusiness)",
      s.org_obj_found || s.clean_schema_types.contains "Organization"
        || s.clean_schema_types.contains "LocalBusiness",
      "Tilføj Organization/LocalBusiness JSON-LD med navn, url, logo, kontakt, sameAs.", 3.0⟩,
    ⟨"Entity Authority", "Kontaktinfo synlig (telefon eller email)",
      s.nap_phone || s.nap_email,
      "Vis telefon/email tydeligt (fx footer/kontaktsektion) og gerne i schema.", 1.0⟩,
    ⟨"Entity Authority", "Adresse/servicebase synlig",
      s.nap_address,
      "Tilføj adresse eller tydelig base + serviceområde.", 1.0⟩,
    ⟨"Entity Authority", "CVR synlig",
      s.nap_cvr,
      "Vis CVR i footer/kontakt (og gerne i schema).", 1.0⟩,
    ⟨"Entity Authority", "Min. 2 sociale profiler / sameAs links",
      decide (s.socials.length ≥ 2),
      "Tilføj Facebook/LinkedIn/Instagram + evt. Trustpilot i sameAs.", 1.5⟩,
    ⟨"Entity Authority", "Om os-side findes (internt link)",
      s.has_about,
      "Tilføj eller link til /om, /om-os, /about-us.", 0.8⟩,
    ⟨"Entity Authority", "Kontakt-side findes (internt link)",
      s.has_contact,
      "Tilføj eller link til /kontakt.", 0.8⟩,
    ⟨"Entity Authority", "Forfatter/Person attribution (artikler/guides)",
      (if s.page_type ≠ "Service Page" then s.person_obj_found || s.author_visible else true),
      "Tilføj forfatterboks + Person schema (navn, rolle, credentials, sameAs).", 2.5⟩ ]

/-- app.py lines 1647-1704: the Content Credibility requirement rows. -/
def credibilityRequirements (s : ScoreSignals) : List Req :=
  [ ⟨"Content Credibility", "Mindst 1 trusted kilde (myndighed/standard/datablad)",
      decide (s.trusted_out_links.length ≥ 1),
      "Link til fx myndighed, standard, SDS/datablad, miljømærke, producentdokumentation.", 1.5⟩,
    ⟨"Content Credibility", "Ekspertudtalelse eller tydelig kilde-attribution",
      hasExpertQuotes s,
      "Tilføj 1–2 korte citater/udtalelser med attribution + link til kilde.", 1.0⟩,
    ⟨"Content Credibility", "Tilstrækkeligt indhold (≥ 450 ord)",
      decide (s.word_count ≥ 450),
      "Udbyg med FAQ, metode, materialer, garanti/vilkår, cases, serviceområde.", 1.5⟩,
    ⟨"Content Credibility", "Proces/arbejdsgang (service-sider)",
      (if s.page_type = "Service Page" then s.has_process else true),
      "Beskriv 3–6 trin (forberedelse → udførelse → efterbehandling).", 1.0⟩,
    ⟨"Content Credibility", "Pris-/fra-pris signal (service-sider)",
      (if s.page_type = "Service Page" then s.has_pricing else true),
      "Tilføj fra-pris, priseksempler eller hvad der påvirker prisen.", 0.8⟩,
    ⟨"Content Credibility", "USP\x27er tydelige (min. 2 stærke USP-signaler)",
      (if s.page_type = "Service Page" then decide (s.usp_count ≥ 2) else true),
      "Tilføj en kort USP-blok (fx \x27+15 års erfaring\x27, \x27Autoriseret\x27, \x27Specialister i X\x27, \x275-stjernede anmeldelser\x27, \x27Garanti\x27) tæt på hero/CTA.", 1.2⟩,
    ⟨"Content Credibility", "Anmeldelser signal (Trustpilot/Google eller schema)",
      (if s.page_type = "Service Page" then s.has_review_platform_signal else true),
      "Vis anmeldelser (Trustpilot/Google) med link eller strukturer dem (AggregateRating/Review).", 1.0⟩,
    ⟨"Content Credibility", "Serviceområde tydeligt (service-sider)",
      (if s.page_type = "Service Page" then s.has_service_area else true),
      "Tilføj byer/regioner eller \x27Hele Danmark\x27 + evt. liste over områder.", 0.7⟩ ]

/-- app.py lines 1705-1770: the Technical Signals requirement rows. -/
def technicalRequirements (s : ScoreSignals) : List Req :=
  [ ⟨"Technical Signals", "Schema markup findes (mindst 1 type)",
      decide (s.clean_schema_types ≠ []),
      "Tilføj mindst business entity + relevant side-type schema.", 2.0⟩,
    ⟨"Technical Signals", "WebPage schema (grundmarkup)",
      s.clean_schema_types.contains "WebPage",
      "Tilføj WebPage JSON-LD (name, url, isPartOf) for at gøre sidetypen tydelig for AI.", 0.7⟩,
    ⟨"Technical Signals", "CreativeWork/Article schema (artikler/guides)",
      (if s.page_type = "Content / Article" then
        s.clean_schema_types.contains "CreativeWork" || s.clean_schema_types.contains "Article"
          || s.clean_schema_types.contains "BlogPosting"
       else true),
      "Tilføj CreativeWork/Article JSON-LD med headline, author, publisher, datoer.", 0.9⟩,
    ⟨"Technical Signals", "SiteNavigationElement schema (når navigation findes)",
      (if s.has_nav_dom then s.clean_schema_types.contains "SiteNavigationElement" else true),
      "Tilføj SiteNavigationElement JSON-LD for at gøre hovednavigationen maskinlæsbar.", 0.5⟩,
    ⟨"Technical Signals", "Service schema (service-sider)",
      (if s.page_type = "Service Page" then s.clean_schema_types.contains "Service" else true),
      "Tilføj Service JSON-LD pr. ydelse og link provider til Organization/@id.", 3.0⟩,
    ⟨"Technical Signals", "FAQPage schema når FAQ-indhold findes",
      (if s.has_faq_like then s.clean_schema_types.contains "FAQPage" else true),
      "Markér Q&A som FAQPage schema.", 0.8⟩,
    ⟨"Technical Signals", "Canonical link findes",
      decide (pyStrip s.meta_canonical ≠ ""),
      "Tilføj rel=canonical.", 0.6⟩,
    ⟨"Technical Signals", "Meta description findes",
      decide (pyStrip s.meta_description ≠ ""),
      "Tilføj unik meta description (140–160 tegn).", 0.4⟩,
    ⟨"Technical Signals", "Privacy/cookie-link findes (internt link)",
      s.has_privacy,
      "Tilføj link til cookie-/privatlivspolitik i footer.", 0.8⟩ ]

/-- app.py lines 1771-1794: the Indexability requirement rows. -/
def indexabilityRequirements (s : ScoreSignals) : List Req :=
  [ ⟨"Indexability", "Ingen noindex (meta/X-Robots-Tag)",
      !((parse_robots_directives s.meta_robots).contains "noindex")
        && !((parse_robots_directives s.x_robots_tag).contains "noindex"),
      "Fjern noindex fra meta robots eller X-Robots-Tag.", 3.0⟩,
    ⟨"Indexability", "Robots.txt tillader siden",
      !(s.robots_txt_allows == some false),
      "Tjek robots.txt (User-agent: *) og fjern disallow for denne URL.", 1.5⟩,
    ⟨"Indexability", "URL svarer 200 og er ikke blokeret",
      ((s.status == 200) || (s.status == 201) || (s.status == 202)) && !s.blocked,
      "Sørg for at siden svarer 200 og ikke er blokeret af robots/noindex.", 3.0⟩ ]

/-- The full requirements dict (app.py line 1588), in insertion order. -/
def requirementsTable (s : ScoreSignals) : List (String × List Req) :=
  [ ("Entity Authority", entityRequirements s),
    ("Content Credibility", credibilityRequirements s),
    ("Technical Signals", technicalRequirements s),
    ("Indexability", indexabilityRequirements s) ]

/-- app.py line 1801: `entity_score = _pillar_score(requirements["Entity Authority"])`. -/
def entity_score (s : ScoreSignals) : ℚ := pillar_score (entityRequirements s)

/-- app.py line 1802. -/
def cred_score (s : ScoreSignals) : ℚ := pillar_score (credibilityRequirements s)

/-- app.py line 1803. -/
def tech_score (s : ScoreSignals) : ℚ := pillar_score (technicalRequirements s)

/-- app.py line 1804. -/
def index_score (s : ScoreSignals) : ℚ := pillar_score (indexabilityRequirements s)

/-- Python `round` on an exact rational: round half to even (banker's
rounding), as `round(x)` does on Python numbers. -/
def pyRound (q : ℚ) : ℤ :=
  if q - ⌊q⌋ < 1/2 then ⌊q⌋
  else if 1/2 < q - ⌊q⌋ then ⌊q⌋ + 1
  else if Even ⌊q⌋ then ⌊q⌋ else ⌊q⌋ + 1

/-- Python `round(x, 1)`: round to one decimal place. -/
def pyRound1 (q : ℚ) : ℚ := (pyRound (10 * q) : ℚ) / 10

/-- app.py line 1807: the overall score. -/
def overall (s : ScoreSignals) : ℚ :=
  pyRound1 ((0.30 : ℚ) * entity_score s + (0.30 : ℚ) * cred_score s
    + (0.25 : ℚ) * tech_score s + (0.15 : ℚ) * index_score s)

/-! ## Generic facts about the scoring rule -/

theorem missingPoints_nonneg (reqs : List Req)
    (h : ∀ r ∈ reqs, 0 ≤ r.impactPoints) : 0 ≤ missingPoints reqs := by
  unfold missingPoints
  apply List.sum_nonneg
  intro x hx
  rcases List.mem_map.1 hx with ⟨r, hr, rfl⟩
  exact h r (List.mem_of_mem_filter hr)

theorem pillar_score_eq (reqs : List Req) :
    pillar_score reqs = clamp (10 - missingPoints reqs) 0 10 := rfl

theorem pillar_score_nonneg (reqs : List Req) : 0 ≤ pillar_score reqs :=
  le_max_left 0 _

theorem pillar_score_le_ten (reqs : List Req) : pillar_score reqs ≤ 10 := by
  unfold pillar_score clamp
  apply max_le _ (min_le_left _ _)
  norm_num

theorem pillar_score_ge (reqs : List Req)
    (h : ∀ r ∈ reqs, 0 ≤ r.impactPoints) :
    10 - missingPoints reqs ≤ pillar_score reqs := by
  unfold pillar_score clamp
  have hm := missingPoints_nonneg reqs h
  have : min 10 (10 - missingPoints reqs) = 10 - missingPoints reqs := by
    apply min_eq_right; linarith
  rw [this]
  exact le_max_right _ _

theorem missingPoints_pos_of_unmet (reqs : List Req)
    (hpos : ∀ r ∈ reqs, 0 < r.impactPoints)
    (r : Req) (hr : r ∈ reqs) (hnot : r.ok = false) :
    0 < missingPoints reqs := by
  unfold missingPoints
  have hmem : r.impactPoints ∈ (reqs.filter (fun r => r.ok = false)).map Req.impactPoints := by
    exact List.mem_map_of_mem _ (List.mem_filter.2 ⟨hr, by simp [hnot]⟩)
  rcases List.mem_iff_append.1 hmem with ⟨l₁, l₂, hsplit⟩
  have hall : ∀ x ∈ (reqs.filter (fun r => r.ok = false)).map Req.impactPoints, 0 ≤ x := by
    intro x hx
    rcases List.mem_map.1 hx with ⟨q, hq, rfl⟩
    exact le_of_lt (hpos q (List.mem_of_mem_filter hq))
  rw [hsplit]
  rw [List.sum_append, List.sum_cons]
  have h₁ : 0 ≤ l₁.sum := by
    apply List.sum_nonneg
    intro x hx
    exact hall x (by rw [hsplit]; exact List.mem_append_left _ hx)
  have h₂ : 0 ≤ l₂.sum := by
    apply List.sum_nonneg
    intro x hx
    exact hall x (by rw [hsplit]; exact List.mem_append_right _ (List.mem_cons_of_mem _ hx))
  have := hpos r hr
  linarith

theorem missingPoints_eq_zero_of_all_ok (reqs : List Req)
    (h : ∀ r ∈ reqs, r.ok = true) : missingPoints reqs = 0 := by
  unfold missingPoints
  have : reqs.filter (fun r => r.ok = false) = [] := by
    apply List.filter_eq_nil_iff.2
    intro r hr
    simp [h r hr]
  rw [this]
  simp

theorem pillar_score_eq_ten_iff (reqs : List Req)
    (hpos : ∀ r ∈ reqs, 0 < r.impactPoints) :
    pillar_score reqs = 10 ↔ ∀ r ∈ reqs, r.ok = true := by
  constructor
  · intro hscore
    by_contra hnot
    push_neg at hnot
    rcases hnot with ⟨r, hr, hok⟩
    have hok' : r.ok = false := by
      cases h : r.ok
      · rfl
      · exact absurd h hok
    have hpos' := missingPoints_pos_of_unmet reqs hpos r hr hok'
    have : pillar_score reqs < 10 := by
      unfold pillar_score clamp
      have h1 : 10 - missingPoints reqs < 10 := by linarith
      have h2 : min 10 (10 - missingPoints reqs) < 10 := lt_of_le_of_lt (min_le_right _ _) h1
      have h3 : (0:ℚ) < 10 := by norm_num
      exact max_lt h3 h2
    linarith [this, hscore.ge]
  · intro hall
    unfold pillar_score clamp
    rw [missingPoints_eq_zero_of_all_ok reqs hall]
    norm_num

theorem pyRound_cases (q : ℚ) : pyRound q = ⌊q⌋ ∨ pyRound q = ⌊q⌋ + 1 := by
  unfold pyRound
  split
  · exact Or.inl rfl
  · split
    · exact Or.inr rfl
    · split
      · exact Or.inl rfl
      · exact Or.inr rfl

theorem le_pyRound (q : ℚ) (n : ℤ) (h : (n : ℚ) ≤ q) : n ≤ pyRound q := by
  have hfl : n ≤ ⌊q⌋ := Int.le_floor.2 h
  rcases pyRound_cases q with hc | hc <;> rw [hc] <;> omega

theorem pyRound_le (q : ℚ) (n : ℤ) (h : q ≤ (n : ℚ)) : pyRound q ≤ n := by
  have hfl : ⌊q⌋ ≤ n := by
    have := Int.floor_le_floor h
    simpa using this
  rcases pyRound_cases q with hc | hc
  · omega
  · rw [hc]
    by_contra hcon
    push_neg at hcon
    have hfn : ⌊q⌋ = n := by omega
    unfold pyRound at hc
    split at hc
    · omega
    · rename_i hge
      push_neg at hge
      have hq : (⌊q⌋ : ℚ) + 1/2 ≤ q := by linarith
      have : ((n : ℚ)) + 1/2 ≤ q := by
        rw [← hfn]; exact hq
      linarith

theorem pyRound1_nonneg (q : ℚ) (h : 0 ≤ q) : 0 ≤ pyRound1 q := by
  unfold pyRound1
  have h0 : (0:ℤ) ≤ pyRound (10 * q) := by
    apply le_pyRound
    push_cast
    linarith
  positivity

theorem pyRound1_le_ten (q : ℚ) (h : q ≤ 10) : pyRound1 q ≤ 10 := by
  unfold pyRound1
  have h0 : pyRound (10 * q) ≤ (100:ℤ) := by
    apply pyRound_le
    push_cast
    linarith
  have : (pyRound (10 * q) : ℚ) ≤ 100 := by exact_mod_cast h0
  linarith

theorem entityRequirements_pos (s : ScoreSignals) :
    ∀ r ∈ entityRequirements s, 0 < r.impactPoints := by
  intro r hr
  simp only [entityRequirements, List.mem_cons, List.not_mem_nil, or_false] at hr
  rcases hr with rfl | rfl | rfl | rfl | rfl | rfl | rfl | rfl <;> norm_num

theorem credibilityRequirements_pos (s : ScoreSignals) :
    ∀ r ∈ credibilityRequirements s, 0 < r.impactPoints := by
  intro r hr
  simp only [credibilityRequirements, List.mem_cons, List.not_mem_nil, or_false] at hr
  rcases hr with rfl | rfl | rfl | rfl | rfl | rfl | rfl | rfl <;> norm_num

theorem technicalRequirements_pos (s : ScoreSignals) :
    ∀ r ∈ technicalRequirements s, 0 < r.impactPoints := by
  intro r hr
  simp only [technicalRequirements, List.mem_cons, List.not_mem_nil, or_false] at hr
  rcases hr with rfl | rfl | rfl | rfl | rfl | rfl | rfl | rfl | rfl <;> norm_num

theorem indexabilityRequirements_pos (s : ScoreSignals) :
    ∀ r ∈ indexabilityRequirements s, 0 < r.impactPoints := by
  intro r hr
  simp only [indexabilityRequirements, List.mem_cons, List.not_mem_nil, or_false] at hr
  rcases hr with rfl | rfl | rfl <;> norm_num

theorem requirementsTable_pos (s : ScoreSignals) :
    ∀ p ∈ requirementsTable s, ∀ r ∈ p.2, 0 < r.impactPoints := by
  intro p hp
  simp only [requirementsTable, List.mem_cons, List.not_mem_nil, or_false] at hp
  rcases hp with rfl | rfl | rfl | rfl
  · exact entityRequirements_pos s
  · exact credibilityRequirements_pos s
  · exact technicalRequirements_pos s
  · exact indexabilityRequirements_pos s

/-- A fixed test assignment of the leaf signals, used to witness the scoring
theorems on a concrete page. -/
def sigZero : ScoreSignals :=
  ⟨false, false, [], false, false, false, false, [], false, false, false, false,
    "General Page", [], false, 0, false, false, 0, false, false, false, false,
    "", "", "", "", none, 200, false⟩

/-- A signal assignment on which every Entity Authority requirement is met. -/
def sigAllOk : ScoreSignals :=
  ⟨true, true, ["Organization"], true, true, true, true, ["a", "b"], true, true, true, true,
    "General Page", [], false, 0, false, false, 0, false, false, false, false,
    "", "", "", "", none, 200, false⟩

/-- C1: for every analyzed page (signal assignment) and every pillar of the
requirements table, the pillar score equals
`clamp(10 - Σ impactPoints over unmet requirements, 0, 10)`, and in
particular lies in the interval `[0, 10]`. -/
theorem C1_pillar_score_is_clamped_deficit :
    ∀ (s : ScoreSignals), ∀ p ∈ requirementsTable s,
      pillar_score p.2 = clamp (10 - missingPoints p.2) 0 10 ∧
        0 ≤ pillar_score p.2 ∧ pillar_score p.2 ≤ 10 := by
  intro s p _
  exact ⟨pillar_score_eq p.2, pillar_score_nonneg p.2, pillar_score_le_ten p.2⟩

theorem C1_witness :
    pillar_score (entityRequirements sigZero)
        = clamp (10 - missingPoints (entityRequirements sigZero)) 0 10 ∧
      0 ≤ pillar_score (entityRequirements sigZero) ∧
        pillar_score (entityRequirements sigZero) ≤ 10 :=
  C1_pillar_score_is_clamped_deficit sigZero ("Entity Authority", entityRequirements sigZero)
    (by simp [requirementsTable])

/-- C2: a pillar score equals exactly 10 iff every requirement in that pillar
is satisfied (`ok = true`), for every reachable requirement table (i.e. for
every signal assignment and every pillar of the table). -/
theorem C2_score_ten_iff_all_ok :
    ∀ (s : ScoreSignals), ∀ p ∈ requirementsTable s,
      (pillar_score p.2 = 10 ↔ ∀ r ∈ p.2, r.ok = true) := by
  intro s p hp
  exact pillar_score_eq_ten_iff p.2 (requirementsTable_pos s p hp)

theorem C2_witness : pillar_score (entityRequirements sigAllOk) = 10 :=
  (C2_score_ten_iff_all_ok sigAllOk ("Entity Authority", entityRequirements sigAllOk)
    (by simp [requirementsTable])).2 (by decide)

/-- C3: the overall score is the fixed convex combination
`0.30 * Entity + 0.30 * Credibility + 0.25 * Technical + 0.15 * Indexability`
rounded to one decimal, and lies in `[0, 10]`. -/
theorem C3_overall_weighted_combination :
    ∀ (s : ScoreSignals),
      overall s = pyRound1 ((0.30 : ℚ) * entity_score s + (0.30 : ℚ) * cred_score s
          + (0.25 : ℚ) * tech_score s + (0.15 : ℚ) * index_score s) ∧
        0 ≤ overall s ∧ overall s ≤ 10 := by
  intro s
  refine ⟨rfl, ?_, ?_⟩
  · apply pyRound1_nonneg
    have h1 := pillar_score_nonneg (entityRequirements s)
    have h2 := pillar_score_nonneg (credibilityRequirements s)
    have h3 := pillar_score_nonneg (technicalRequirements s)
    have h4 := pillar_score_nonneg (indexabilityRequirements s)
    unfold entity_score cred_score tech_score index_score
    norm_num
    linarith
  · apply pyRound1_le_ten
    have h1 := pillar_score_le_ten (entityRequirements s)
    have h2 := pillar_score_le_ten (credibilityRequirements s)
    have h3 := pillar_score_le_ten (technicalRequirements s)
    have h4 := pillar_score_le_ten (indexabilityRequirements s)
    have h1' := pillar_score_nonneg (entityRequirements s)
    have h2' := pillar_score_nonneg (credibilityRequirements s)
    have h3' := pillar_score_nonneg (technicalRequirements s)
    have h4' := pillar_score_nonneg (indexabilityRequirements s)
    unfold entity_score cred_score tech_score index_score
    norm_num
    linarith

/-! ## robots.txt evaluation (app.py lines 392-461) -/

/-- Take the prefix of a string up to (excluding) the first character
satisfying `p` (models Python `s.split(sep, 1)[0]`). -/
def takeUntilChar (p : Char → Bool) (s : String) : String :=
  String.mk (s.data.takeWhile (fun c => !p c))

/-- Python `s.split(":", 1)[1]`: everything after the first colon.  Only used
under a guard that ensures a colon is present. -/
def afterFirstColon (s : String) : String :=
  String.mk ((s.data.dropWhile (fun c => c ≠ ':')).drop 1)

/-- Python `str.splitlines()` restricted to `\n` / `\r\n` / `\r` line ends.
Trailing-empty-line differences are immaterial because every consumer strips
and drops empty lines. -/
def pySplitLines (s : String) : List String :=
  strSplit (fun c => c = '\n') (String.mk (s.data.map (fun c => if c = '\r' then '\n' else c)))

/-- app.py lines 407-411: comment-stripped, trimmed, non-empty robots.txt
lines. -/
def robotsCleanLines (robotsTxt : String) : List String :=
  ((pySplitLines robotsTxt).map (fun raw => pyStrip (takeUntilChar (fun c => c = '#') raw))).filter
    (fun ln => ln ≠ "")

/-- Is this line a `User-agent:` header naming `*` (app.py lines 420-422)? -/
def isStarAgentLine (ln : String) : Bool :=
  strStartsWith (pyLower ln) "user-agent:" && (pyStrip (afterFirstColon ln) == "*")

/-- app.py lines 413-431: walk the cleaned lines keeping `Allow`/`Disallow`
rules of `User-agent: *` groups.  Returns `(disallows, allows)`. -/
def collectRobotsRules : List String → Bool → List String × List String
  | [], _ => ([], [])
  | ln :: rest, inStar =>
    let low := pyLower ln
    if strStartsWith low "user-agent:" then
      collectRobotsRules rest ((pyStrip (afterFirstColon ln)) == "*")
    else if !inStar then
      collectRobotsRules rest inStar
    else if strStartsWith low "disallow:" then
      let da := collectRobotsRules rest inStar
      (pyStrip (afterFirstColon ln) :: da.1, da.2)
    else if strStartsWith low "allow:" then
      let da := collectRobotsRules rest inStar
      (da.1, pyStrip (afterFirstColon ln) :: da.2)
    else
      collectRobotsRules rest inStar

/-- app.py lines 436-443 `matches(rule, p)`: an empty (stripped) rule never
matches; otherwise prefix match. -/
def ruleMatches (rule p : String) : Bool :=
  let r := pyStrip rule
  if r = "" then false else strStartsWith p r

/-- app.py lines 446-454: fold keeping the longest matching rule (`""` when
none matches). -/
def bestRule (rules : List String) (path : String) : String :=
  rules.foldl
    (fun best r =>
      if r ≠ "" ∧ ruleMatches r path = true ∧ best.data.length < r.data.length then r else best)
    ""

/-- app.py lines 433-461: decide from the collected rule lists.  The
`(none, none)` branch is the `not disallows and not allows` early return. -/
def evalRobotsRules (allows disallows : List String) (path : String) :
    Option Bool × Option String :=
  if disallows = [] ∧ allows = [] then (none, none)
  else
    let ba := bestRule allows path
    let bd := bestRule disallows path
    if ba ≠ "" ∧ bd.data.length ≤ ba.data.length then (some true, some ("Allow: " ++ ba))
    else if bd ≠ "" then (some false, some ("Disallow: " ++ bd))
    else (some true, none)

/-- Split a string at the first occurrence of `://` (scheme separator). -/
def splitScheme (s : String) : Option (String × String) :=
  match findSubIdx s.data ("://".data) with
  | none => none
  | some i => some (String.mk (s.data.take i), String.mk (s.data.drop (i + 3)))

/-- Python `urlparse(url)` reduced to the `path [+ "?" + query]` target string
built in app.py lines 402-405, for the http(s) URLs this code feeds it
(IPv6 hosts and `scheme:opaque` forms are outside the repertoire). -/
def urlPathAndQuery (url : String) : String :=
  let rest :=
    match splitScheme url with
    | some pr => String.mk (pr.2.data.dropWhile (fun c => c ≠ '/' && c ≠ '?' && c ≠ '#'))
    | none => url
  let path := String.mk (rest.data.takeWhile (fun c => c ≠ '?' && c ≠ '#'))
  let afterPath := rest.data.drop path.data.length
  let query :=
    if afterPath.head? = some '?' then
      String.mk ((afterPath.drop 1).takeWhile (fun c => c ≠ '#'))
    else ""
  let path := if path = "" then "/" else path
  if query ≠ "" then path ++ "?" ++ query else path

/-- app.py `robots_txt_allows(url, robots_txt)`. -/
def robots_txt_allows (url robotsTxt : String) : Option Bool × Option String :=
  if robotsTxt = "" ∨ url = "" then (none, none)
  else
    let path := urlPathAndQuery url
    let da := collectRobotsRules (robotsCleanLines robotsTxt) false
    evalRobotsRules da.2 da.1 path

/-! ## Indexability decision (app.py lines 463-521) -/

/-- app.py lines 468-472: first header whose lowercased key is
`x-robots-tag`, stripped (`""` when absent). -/
def xRobotsFromHeaders (headers : List (String × String)) : String :=
  match headers.find? (fun kv => pyLower kv.1 == "x-robots-tag") with
  | some kv => pyStrip kv.2
  | none => ""

/-- app.py line 477. -/
def metaNoindexOf (metaRobots : String) : Bool :=
  (parse_robots_directives (pyStrip metaRobots)).contains "noindex"

/-- app.py line 478. -/
def headerNoindexOf (headers : List (String × String)) : Bool :=
  (parse_robots_directives (xRobotsFromHeaders headers)).contains "noindex"

/-- app.py line 483 guard: the robots.txt check runs only for a real
http(s) URL. -/
def isHttpUrl (u : String) : Bool :=
  strStartsWith u "http://" || strStartsWith u "https://"

/-- The robots.txt verdict compute_indexability works with (app.py lines
481-486); the fetched robots.txt body is collaborator output. -/
def robotsAllowsOf (url robotsTxt : String) : Option Bool :=
  if isHttpUrl url then (robots_txt_allows url robotsTxt).1 else none

/-- Same for the matched-rule string. -/
def robotsRuleOf (url robotsTxt : String) : Option String :=
  if isHttpUrl url then (robots_txt_allows url robotsTxt).2 else none

/-- app.py lines 489-497: the blocked-reasons list, in source order. -/
def blockedReasonsOf (status : ℤ) (metaNoindex headerNoindex : Bool)
    (robotsAllows : Option Bool) : List String :=
  (if status ≠ 0 ∧ 400 ≤ status then ["HTTP " ++ toString status] else [])
    ++ (if metaNoindex then ["meta robots=noindex"] else [])
    ++ (if headerNoindex then ["X-Robots-Tag=noindex"] else [])
    ++ (if robotsAllows = some false then ["robots.txt disallow"] else [])

/-- app.py lines 499-509: the label decision. -/
def indexLabelOf (status : ℤ) (metaNoindex headerNoindex : Bool)
    (robotsAllows : Option Bool) (blockedReasons : List String) : String :=
  if metaNoindex || headerNoindex then "Noindex"
  else if status ≠ 0 ∧ 400 ≤ status then "Not reachable"
  else if robotsAllows = some false then "Blocked by robots.txt"
  else if (status = 200 ∨ status = 201 ∨ status = 202) ∧ blockedReasons = [] then "Indexable"
  else "Uncertain"

/-- The record `compute_indexability` returns (app.py lines 511-521). -/
structure IndexabilityResult where
  label : String
  blocked : Bool
  blocked_reasons : List String
  status : ℤ
  meta_robots : String
  x_robots_tag : String
  robots_txt_allows : Option Bool
  robots_txt_rule : Option String
deriving DecidableEq

/-- app.py `compute_indexability(final_url, status, meta, headers)`; the
`meta` dict is represented by its `robots` entry (the only key read), and the
robots.txt body by the `robotsTxt` argument (its fetch is an external
collaborator). -/
def compute_indexability (final_url : String) (status : ℤ) (metaRobots : String)
    (headers : List (String × String)) (robotsTxt : String) : IndexabilityResult :=
  let meta_robots_raw := pyStrip metaRobots
  let x_robots_raw := xRobotsFromHeaders headers
  let meta_noindex := metaNoindexOf metaRobots
  let header_noindex := headerNoindexOf headers
  let robots_allows := robotsAllowsOf final_url robotsTxt
  let reasons := blockedReasonsOf status meta_noindex header_noindex robots_allows
  ⟨indexLabelOf status meta_noindex header_noindex robots_allows reasons,
    !reasons.isEmpty, reasons, status, meta_robots_raw, x_robots_raw,
    robots_allows, robotsRuleOf final_url robotsTxt⟩

theorem blockedReasons_eq_nil_iff (status : ℤ) (m h : Bool) (ra : Option Bool) :
    blockedReasonsOf status m h ra = [] ↔
      (¬ 400 ≤ status ∧ m = false ∧ h = false ∧ ra ≠ some false) := by
  unfold blockedReasonsOf
  constructor
  · intro he
    by_cases h1 : status ≠ 0 ∧ 400 ≤ status <;>
      by_cases h2 : m = true <;>
        by_cases h3 : h = true <;>
          by_cases h4 : ra = some false <;>
            simp [h1, h2, h3, h4] at he ⊢ <;> try omega
  · intro hc
    have h1 : ¬ (status ≠ 0 ∧ 400 ≤ status) := by
      intro hx
      exact hc.1 hx.2
    simp [h1, hc.2.1, hc.2.2.1, hc.2.2.2]

theorem blocked_iff_reason (status : ℤ) (m h : Bool) (ra : Option Bool) :
    (!(blockedReasonsOf status m h ra).isEmpty) = true ↔
      (400 ≤ status ∨ m = true ∨ h = true ∨ ra = some false) := by
  rw [Bool.not_eq_true', List.isEmpty_eq_false_iff_exists_mem]
  constructor
  · intro ⟨x, hx⟩
    by_contra hcon
    push_neg at hcon
    have : blockedReasonsOf status m h ra = [] := by
      rw [blockedReasons_eq_nil_iff]
      refine ⟨by omega, ?_, ?_, hcon.2.2.2⟩
      · cases hm : m
        · rfl
        · exact absurd hm hcon.2.1
      · cases hh : h
        · rfl
        · exact absurd hh hcon.2.2.1
    rw [this] at hx
    exact List.not_mem_nil x hx
  · intro hdisj
    have : blockedReasonsOf status m h ra ≠ [] := by
      intro he
      rw [blockedReasons_eq_nil_iff] at he
      rcases hdisj with h1 | h1 | h1 | h1
      · exact he.1 h1
      · rw [he.2.1] at h1; exact Bool.false_ne_true h1
      · rw [he.2.2.1] at h1; exact Bool.false_ne_true h1
      · exact he.2.2.2 h1
    rcases List.exists_mem_of_ne_nil _ this with ⟨x, hx⟩
    exact ⟨x, hx⟩

/-- C4: the indexability label follows the precedence (noindex, then
HTTP >= 400, then robots.txt disallow, then 200/201/202 => Indexable, else
Uncertain); `blocked` holds iff at least one of the four triggers holds; and
an `X-Robots-Tag` header carrying a `noindex` directive forces label
`"Noindex"` and `blocked = true` regardless of status and robots.txt. -/
theorem C4_indexability_precedence_and_blocked :
    ∀ (url : String) (status : ℤ) (metaRobots : String)
      (headers : List (String × String)) (robotsTxt : String),
      ((compute_indexability url status metaRobots headers robotsTxt).label =
        (if metaNoindexOf metaRobots || headerNoindexOf headers then "Noindex"
         else if 400 ≤ status then "Not reachable"
         else if robotsAllowsOf url robotsTxt = some false then "Blocked by robots.txt"
         else if status = 200 ∨ status = 201 ∨ status = 202 then "Indexable"
         else "Uncertain")) ∧
      ((compute_indexability url status metaRobots headers robotsTxt).blocked = true ↔
        (400 ≤ status ∨ metaNoindexOf metaRobots = true ∨ headerNoindexOf headers = true
          ∨ robotsAllowsOf url robotsTxt = some false)) ∧
      (headerNoindexOf headers = true →
        (compute_indexability url status metaRobots headers robotsTxt).label = "Noindex" ∧
          (compute_indexability url status metaRobots headers robotsTxt).blocked = true) := by
  intro url status metaRobots headers robotsTxt
  have hlab : (compute_indexability url status metaRobots headers robotsTxt).label =
      indexLabelOf status (metaNoindexOf metaRobots) (headerNoindexOf headers)
        (robotsAllowsOf url robotsTxt)
        (blockedReasonsOf status (metaNoindexOf metaRobots) (headerNoindexOf headers)
          (robotsAllowsOf url robotsTxt)) := rfl
  have hblk : (compute_indexability url status metaRobots headers robotsTxt).blocked =
      !(blockedReasonsOf status (metaNoindexOf metaRobots) (headerNoindexOf headers)
          (robotsAllowsOf url robotsTxt)).isEmpty := rfl
  set m := metaNoindexOf metaRobots
  set hn := headerNoindexOf headers
  set ra := robotsAllowsOf url robotsTxt
  have hmain : indexLabelOf status m hn ra (blockedReasonsOf status m hn ra) =
      (if m || hn then "Noindex"
       else if 400 ≤ status then "Not reachable"
       else if ra = some false then "Blocked by robots.txt"
       else if status = 200 ∨ status = 201 ∨ status = 202 then "Indexable"
       else "Uncertain") := by
    unfold indexLabelOf
    by_cases h1 : (m || hn) = true
    · simp [h1]
    · have h1' : m = false ∧ hn = false := by
        cases hm : m <;> cases hh : hn <;> simp [hm, hh] at h1 ⊢
      by_cases h2 : 400 ≤ status
      · have : status ≠ 0 ∧ 400 ≤ status := ⟨by omega, h2⟩
        simp [h1, this, h2]
      · have h2' : ¬ (status ≠ 0 ∧ 400 ≤ status) := by
          intro hx; exact h2 hx.2
        by_cases h3 : ra = some false
        · simp [h1, h2', h2, h3]
        · by_cases h4 : status = 200 ∨ status = 201 ∨ status = 202
          · have hnil : blockedReasonsOf status m hn ra = [] := by
              rw [blockedReasons_eq_nil_iff]
              exact ⟨h2, h1'.1, h1'.2, h3⟩
            simp [h1, h2', h2, h3, h4, hnil]
          · simp [h1, h2', h2, h3, h4]
  refine ⟨by rw [hlab, hmain], by rw [hblk]; exact blocked_iff_reason status m hn ra, ?_⟩
  intro hhn
  constructor
  · rw [hlab, hmain, hhn]
    simp
  · rw [hblk, blocked_iff_reason status m hn ra]
    exact Or.inr (Or.inr (Or.inl hhn))

theorem C4_witness :
    headerNoindexOf [("X-Robots-Tag", "noindex")] = true ∧
      (compute_indexability "https://example.dk/side" 200 ""
          [("X-Robots-Tag", "noindex")] "").label = "Noindex" ∧
      (compute_indexability "https://example.dk/side" 200 ""
          [("X-Robots-Tag", "noindex")] "").blocked = true := by
  refine ⟨by decide, ?_⟩
  exact (C4_indexability_precedence_and_blocked "https://example.dk/side" 200 ""
    [("X-Robots-Tag", "noindex")] "").2.2 (by decide)

theorem bestFold_init_le (path : String) (l : List String) :
    ∀ init : String,
      init.data.length ≤ (l.foldl (fun best r =>
        if r ≠ "" ∧ ruleMatches r path = true ∧ best.data.length < r.data.length then r
        else best) init).data.length := by
  induction l with
  | nil => intro init; simp
  | cons x xs ih =>
    intro init
    simp only [List.foldl_cons]
    by_cases hc : (x ≠ "" ∧ ruleMatches x path = true ∧ init.data.length < x.data.length)
    · rw [if_pos hc]
      exact le_trans (le_of_lt hc.2.2) (ih x)
    · rw [if_neg hc]
      exact ih init

theorem bestFold_ge (path : String) (l : List String) :
    ∀ (init r : String), r ∈ l → r ≠ "" → ruleMatches r path = true →
      r.data.length ≤ (l.foldl (fun best r =>
        if r ≠ "" ∧ ruleMatches r path = true ∧ best.data.length < r.data.length then r
        else best) init).data.length := by
  induction l with
  | nil =>
    intro init r hr
    exact absurd hr (List.not_mem_nil r)
  | cons x xs ih =>
    intro init r hr hne hmat
    simp only [List.foldl_cons]
    rcases List.mem_cons.1 hr with rfl | hr'
    · by_cases hc : (r ≠ "" ∧ ruleMatches r path = true ∧ init.data.length < r.data.length)
      · rw [if_pos hc]
        exact bestFold_init_le path xs r
      · have : ¬ init.data.length < r.data.length := by
          intro hlt
          exact hc ⟨hne, hmat, hlt⟩
        rw [if_neg hc]
        exact le_trans (by omega) (bestFold_init_le path xs init)
    · exact ih _ r hr' hne hmat

theorem bestFold_cases (path : String) (l : List String) :
    ∀ init : String,
      (l.foldl (fun best r =>
        if r ≠ "" ∧ ruleMatches r path = true ∧ best.data.length < r.data.length then r
        else best) init) = init ∨
      ((l.foldl (fun best r =>
        if r ≠ "" ∧ ruleMatches r path = true ∧ best.data.length < r.data.length then r
        else best) init) ∈ l ∧
        ruleMatches (l.foldl (fun best r =>
          if r ≠ "" ∧ ruleMatches r path = true ∧ best.data.length < r.data.length then r
          else best) init) path = true) := by
  induction l with
  | nil => intro init; exact Or.inl rfl
  | cons x xs ih =>
    intro init
    simp only [List.foldl_cons]
    by_cases hc : (x ≠ "" ∧ ruleMatches x path = true ∧ init.data.length < x.data.length)
    · rw [if_pos hc]
      rcases ih x with h | h
      · exact Or.inr ⟨by rw [h]; exact List.mem_cons_self x xs, by rw [h]; exact hc.2.1⟩
      · exact Or.inr ⟨List.mem_cons_of_mem x h.1, h.2⟩
    · rw [if_neg hc]
      rcases ih init with h | h
      · exact Or.inl h
      · exact Or.inr ⟨List.mem_cons_of_mem x h.1, h.2⟩

theorem bestRule_ge (rules : List String) (path : String) :
    ∀ r ∈ rules, r ≠ "" → ruleMatches r path = true →
      r.data.length ≤ (bestRule rules path).data.length := by
  intro r hr hne hmat
  exact bestFold_ge path rules "" r hr hne hmat

theorem bestRule_cases (rules : List String) (path : String) :
    bestRule rules path = "" ∨
      (bestRule rules path ∈ rules ∧ ruleMatches (bestRule rules path) path = true) := by
  exact bestFold_cases path rules ""

theorem evalRobotsRules_allow_wins (allows disallows : List String) (path : String)
    (h1 : bestRule allows path ≠ "")
    (h2 : (bestRule disallows path).data.length ≤ (bestRule allows path).data.length) :
    (evalRobotsRules allows disallows path).1 = some true := by
  have hne : ¬ (disallows = [] ∧ allows = []) := by
    rintro ⟨-, ha⟩
    rcases bestRule_cases allows path with h | h
    · exact h1 h
    · rw [ha] at h
      exact List.not_mem_nil _ h.1
  unfold evalRobotsRules
  rw [if_neg hne]
  simp only
  rw [if_pos ⟨h1, h2⟩]

theorem evalRobotsRules_disallow_wins (allows disallows : List String) (path : String)
    (h1 : bestRule disallows path ≠ "")
    (h2 : (bestRule allows path).data.length < (bestRule disallows path).data.length) :
    (evalRobotsRules allows disallows path).1 = some false := by
  have hne : ¬ (disallows = [] ∧ allows = []) := by
    rintro ⟨hd, -⟩
    rcases bestRule_cases disallows path with h | h
    · exact h1 h
    · rw [hd] at h
      exact List.not_mem_nil _ h.1
  unfold evalRobotsRules
  rw [if_neg hne]
  simp only
  rw [if_neg (by rintro ⟨-, hle⟩; omega)]
  rw [if_pos h1]

theorem collectRobotsRules_no_star (lines : List String)
    (h : ∀ ln ∈ lines, isStarAgentLine ln = false) :
    collectRobotsRules lines false = ([], []) := by
  induction lines with
  | nil => rfl
  | cons ln rest ih =>
    have hln := h ln (List.mem_cons_self ln rest)
    have hrest : ∀ l ∈ rest, isStarAgentLine l = false :=
      fun l hl => h l (List.mem_cons_of_mem ln hl)
    unfold collectRobotsRules
    by_cases hua : strStartsWith (pyLower ln) "user-agent:" = true
    · have hstar : (pyStrip (afterFirstColon ln) == "*") = false := by
        unfold isStarAgentLine at hln
        rw [hua] at hln
        simpa using hln
      rw [if_pos hua, hstar]
      exact ih hrest
    · rw [if_neg hua]
      simp only [Bool.not_false, if_pos]
      exact ih hrest

theorem ruleMatches_strip_empty (rule path : String) (h : pyStrip rule = "") :
    ruleMatches rule path = false := by
  unfold ruleMatches
  rw [h]
  rfl

theorem bestFold_filter_strip (path : String) (rules : List String) :
    ∀ init : String,
      ((rules.filter (fun r => pyStrip r ≠ "")).foldl (fun best r =>
        if r ≠ "" ∧ ruleMatches r path = true ∧ best.data.length < r.data.length then r
        else best) init) =
      (rules.foldl (fun best r =>
        if r ≠ "" ∧ ruleMatches r path = true ∧ best.data.length < r.data.length then r
        else best) init) := by
  induction rules with
  | nil => intro init; rfl
  | cons x xs ih =>
    intro init
    by_cases hx : pyStrip x ≠ ""
    · rw [List.filter_cons_of_pos (by simpa using hx)]
      simp only [List.foldl_cons]
      exact ih _
    · push_neg at hx
      rw [List.filter_cons_of_neg (by simpa using hx)]
      simp only [List.foldl_cons]
      have hm := ruleMatches_strip_empty x path hx
      rw [if_neg (by rintro ⟨-, hmat, -⟩; rw [hm] at hmat; exact Bool.false_ne_true hmat)]
      exact ih init

theorem bestRule_filter_strip (rules : List String) (path : String) :
    bestRule (rules.filter (fun r => pyStrip r ≠ "")) path = bestRule rules path :=
  bestFold_filter_strip path rules ""

theorem robots_txt_allows_of_no_rules (url robotsTxt : String)
    (h : collectRobotsRules (robotsCleanLines robotsTxt) false = ([], [])) :
    robots_txt_allows url robotsTxt = (none, none) := by
  unfold robots_txt_allows
  by_cases he : robotsTxt = "" ∨ url = ""
  · rw [if_pos he]
  · rw [if_neg he]
    simp only [h]
    unfold evalRobotsRules
    rw [if_pos ⟨rfl, rfl⟩]

theorem indexLabelOf_ne_blocked_of_none (status : ℤ) (m h : Bool) (reasons : List String) :
    indexLabelOf status m h none reasons ≠ "Blocked by robots.txt" := by
  unfold indexLabelOf
  split_ifs with h1 h2 h3 h4
  · decide
  · decide
  · simp at h3
  · decide
  · decide

/-- C5: the robots decision collects rules only from the `User-agent: *`
group (no star group means no rules, hence verdict `none`); an empty
(stripped) `Disallow`/`Allow` value never matches and never changes the
best-rule fold; among matching rules the longest wins, with ties (allow
length >= disallow length) going to allow; an empty robots.txt, or one from
which no rules were collected, yields `robotsTxtAllows = none`; and the
indexability decision treats `none` as non-blocking. -/
theorem C5_robots_longest_match_and_null :
    (∀ url robotsTxt : String,
       robots_txt_allows url "" = (none, none) ∧
       ((∀ ln ∈ robotsCleanLines robotsTxt, isStarAgentLine ln = false) →
          robots_txt_allows url robotsTxt = (none, none)) ∧
       (collectRobotsRules (robotsCleanLines robotsTxt) false = ([], []) →
          robots_txt_allows url robotsTxt = (none, none))) ∧
    (∀ rule path : String, pyStrip rule = "" → ruleMatches rule path = false) ∧
    (∀ (rules : List String) (path : String),
       bestRule (rules.filter (fun r => pyStrip r ≠ "")) path = bestRule rules path) ∧
    (∀ (rules : List String) (path : String), ∀ r ∈ rules,
       r ≠ "" → ruleMatches r path = true →
         r.data.length ≤ (bestRule rules path).data.length) ∧
    (∀ (allows disallows : List String) (path : String),
       bestRule allows path ≠ "" →
       (bestRule disallows path).data.length ≤ (bestRule allows path).data.length →
         (evalRobotsRules allows disallows path).1 = some true) ∧
    (∀ (allows disallows : List String) (path : String),
       bestRule disallows path ≠ "" →
       (bestRule allows path).data.length < (bestRule disallows path).data.length →
         (evalRobotsRules allows disallows path).1 = some false) ∧
    (∀ (url : String) (status : ℤ) (metaRobots : String)
       (headers : List (String × String)) (robotsTxt : String),
       robotsAllowsOf url robotsTxt = none →
         ((compute_indexability url status metaRobots headers robotsTxt).blocked = true ↔
            (400 ≤ status ∨ metaNoindexOf metaRobots = true
              ∨ headerNoindexOf headers = true)) ∧
         (compute_indexability url status metaRobots headers robotsTxt).label
           ≠ "Blocked by robots.txt") := by
  refine ⟨?_, ruleMatches_strip_empty, bestRule_filter_strip, bestRule_ge,
    evalRobotsRules_allow_wins, evalRobotsRules_disallow_wins, ?_⟩
  · intro url robotsTxt
    refine ⟨?_, ?_, robots_txt_allows_of_no_rules url robotsTxt⟩
    · unfold robots_txt_allows
      rw [if_pos (Or.inl rfl)]
    · intro hno
      exact robots_txt_allows_of_no_rules url robotsTxt
        (collectRobotsRules_no_star (robotsCleanLines robotsTxt) hno)
  · intro url status metaRobots headers robotsTxt hra
    have hblk : (compute_indexability url status metaRobots headers robotsTxt).blocked =
        !(blockedReasonsOf status (metaNoindexOf metaRobots) (headerNoindexOf headers)
            (robotsAllowsOf url robotsTxt)).isEmpty := rfl
    have hlab : (compute_indexability url status metaRobots headers robotsTxt).label =
        indexLabelOf status (metaNoindexOf metaRobots) (headerNoindexOf headers)
          (robotsAllowsOf url robotsTxt)
          (blockedReasonsOf status (metaNoindexOf metaRobots) (headerNoindexOf headers)
            (robotsAllowsOf url robotsTxt)) := rfl
    constructor
    · rw [hblk, blocked_iff_reason]
      rw [hra]
      simp
    · rw [hlab, hra]
      exact indexLabelOf_ne_blocked_of_none status _ _ _

theorem C5_witness :
    robots_txt_allows "https://x.dk/p" "" = (none, none) ∧
      ((∀ ln ∈ robotsCleanLines "User-agent: google\nDisallow: /",
          isStarAgentLine ln = false) ∧
        robots_txt_allows "https://x.dk/p" "User-agent: google\nDisallow: /" = (none, none)) ∧
      ruleMatches " " "/p" = false ∧
      bestRule ([" ", "/p"].filter (fun r => pyStrip r ≠ "")) "/page" = bestRule [" ", "/p"] "/page" ∧
      ("/p".data.length ≤ (bestRule ["/", "/p"] "/page").data.length) ∧
      (evalRobotsRules ["/p"] ["/p"] "/page").1 = some true ∧
      (evalRobotsRules ["/"] ["/pa"] "/page").1 = some false ∧
      (((compute_indexability "https://x.dk/p" 200 "" [] "").blocked = true ↔
          (400 ≤ (200:ℤ) ∨ metaNoindexOf "" = true ∨ headerNoindexOf [] = true)) ∧
        (compute_indexability "https://x.dk/p" 200 "" [] "").label ≠ "Blocked by robots.txt") := by
  have h := C5_robots_longest_match_and_null
  refine ⟨(h.1 "https://x.dk/p" "").1, ⟨by decide, ?_⟩, ?_, ?_, ?_, ?_, ?_, ?_⟩
  · exact (h.1 "https://x.dk/p" "User-agent: google\nDisallow: /").2.1 (by decide)
  · exact h.2.1 " " "/p" (by decide)
  · exact h.2.2.1 [" ", "/p"] "/page"
  · exact h.2.2.2.1 ["/", "/p"] "/page" "/p" (by decide) (by decide) (by decide)
  · exact h.2.2.2.2.1 ["/p"] ["/p"] "/page" (by decide) (by decide)
  · exact h.2.2.2.2.2.1 ["/"] ["/pa"] "/page" (by decide) (by decide)
  · exact h.2.2.2.2.2.2 "https://x.dk/p" 200 "" [] "" (by decide)

/-! ## Link extraction (app.py lines 207-211 and 274-297) -/

/-- app.py `get_hostname`: `(urlparse(url).hostname or "").lower()`,
restricted to the URL shapes this code feeds it (http(s) URLs, protocol
relative `//...` forms, and host-less strings such as `"(pasted)"`; IPv6
bracket hosts are outside the repertoire).  The netloc is what follows the
scheme up to the first `/`, `?` or `#`; the hostname drops userinfo (after
the last `@`) and the port (after the first `:`) and is lowercased. -/
def get_hostname (url : String) : String :=
  let netloc :=
    match splitScheme url with
    | some pr => String.mk (pr.2.data.takeWhile (fun c => c ≠ '/' && c ≠ '?' && c ≠ '#'))
    | none =>
      if strStartsWith url "//" then
        String.mk ((url.data.drop 2).takeWhile (fun c => c ≠ '/' && c ≠ '?' && c ≠ '#'))
      else ""
  pyLower (String.mk
    (((netloc.data.reverse.takeWhile (fun c => c ≠ '@')).reverse).takeWhile (fun c => c ≠ ':')))

/-- app.py line 279: `base_host = get_hostname(base_url) if base_url else ""`. -/
def baseHostOf (base_url : String) : String :=
  if base_url ≠ "" then get_hostname base_url else ""

/-- app.py lines 282-286: strip the href and drop empty ones and those with a
`mailto:` / `tel:` / `#` / `javascript:` prefix. -/
def keptLink (href0 : String) : Option String :=
  let s := pyStrip href0
  if s = "" then none
  else if strStartsWith s "mailto:" || strStartsWith s "tel:" || strStartsWith s "#"
      || strStartsWith s "javascript:" then none
  else some s

/-- app.py line 288: absolute http(s) href test. -/
def isAbsLink (s : String) : Bool :=
  strStartsWith s "http://" || strStartsWith s "https://"

/-- app.py lines 288-295: the loop body appending to the internal/external
accumulators. -/
def linkStep (base_host : String) (acc : List String × List String) (href0 : String) :
    List String × List String :=
  match keptLink href0 with
  | none => acc
  | some s =>
    if isAbsLink s then
      if base_host ≠ "" ∧ get_hostname s ≠ "" ∧ get_hostname s = base_host then
        (acc.1 ++ [s], acc.2)
      else (acc.1, acc.2 ++ [s])
    else (acc.1 ++ [s], acc.2)

/-- app.py `extract_links(html, base_url)`: the anchor hrefs are the
HTML-parsing collaborator's output; returns
`(dict.fromkeys(internal), dict.fromkeys(external))`. -/
def extract_links (hrefs : List String) (base_url : String) : List String × List String :=
  let res := hrefs.foldl (linkStep (baseHostOf base_url)) ([], [])
  (pyDedup res.1, pyDedup res.2)

/-- Internal links as collected by the loop, before deduplication. -/
def internalRaw (base_host : String) (hrefs : List String) : List String :=
  hrefs.filterMap (fun href0 =>
    match keptLink href0 with
    | none => none
    | some s =>
      if isAbsLink s then
        if base_host ≠ "" ∧ get_hostname s ≠ "" ∧ get_hostname s = base_host then some s
        else none
      else some s)

/-- External links as collected by the loop, before deduplication. -/
def externalRaw (base_host : String) (hrefs : List String) : List String :=
  hrefs.filterMap (fun href0 =>
    match keptLink href0 with
    | none => none
    | some s =>
      if isAbsLink s then
        if base_host ≠ "" ∧ get_hostname s ≠ "" ∧ get_hostname s = base_host then none
        else some s
      else none)

theorem linkStep_foldl (base_host : String) (hrefs : List String) :
    ∀ (i e : List String),
      hrefs.foldl (linkStep base_host) (i, e) =
        (i ++ internalRaw base_host hrefs, e ++ externalRaw base_host hrefs) := by
  induction hrefs with
  | nil => intro i e; simp [internalRaw, externalRaw]
  | cons h t ih =>
    intro i e
    simp only [List.foldl_cons]
    rcases hk : keptLink h with - | s
    · rw [show linkStep base_host (i, e) h = (i, e) by simp [linkStep, hk]]
      rw [ih i e]
      simp [internalRaw, externalRaw, hk]
    · by_cases habs : isAbsLink s = true
      · by_cases hcond : base_host ≠ "" ∧ get_hostname s ≠ "" ∧ get_hostname s = base_host
        · rw [show linkStep base_host (i, e) h = (i ++ [s], e) by
            simp [linkStep, hk, habs, hcond]]
          rw [ih (i ++ [s]) e]
          simp [internalRaw, externalRaw, hk, habs, hcond]
        · rw [show linkStep base_host (i, e) h = (i, e ++ [s]) by
            simp [linkStep, hk, habs, hcond]]
          rw [ih i (e ++ [s])]
          simp [internalRaw, externalRaw, hk, habs, hcond]
      · have habs' : isAbsLink s = false := by
          cases hx : isAbsLink s
          · rfl
          · exact absurd hx habs
        rw [show linkStep base_host (i, e) h = (i ++ [s], e) by
          simp [linkStep, hk, habs']]
        rw [ih (i ++ [s]) e]
        simp [internalRaw, externalRaw, hk, habs']

theorem extract_links_eq (hrefs : List String) (base_url : String) :
    extract_links hrefs base_url =
      (pyDedup (internalRaw (baseHostOf base_url) hrefs),
        pyDedup (externalRaw (baseHostOf base_url) hrefs)) := by
  unfold extract_links
  rw [linkStep_foldl (baseHostOf base_url) hrefs [] []]
  simp

theorem pyDedup_mem {α : Type} [DecidableEq α] (l : List α) (x : α) :
    x ∈ pyDedup l ↔ x ∈ l := by
  have key : ∀ (l : List α) (acc : List α),
      (x ∈ l.foldl (fun acc x => if x ∈ acc then acc else acc ++ [x]) acc ↔
        x ∈ acc ∨ x ∈ l) := by
    intro l
    induction l with
    | nil => intro acc; simp
    | cons h t ih =>
      intro acc
      simp only [List.foldl_cons]
      by_cases hh : h ∈ acc
      · rw [if_pos hh, ih acc]
        constructor
        · intro hx
          rcases hx with hx | hx
          · exact Or.inl hx
          · exact Or.inr (List.mem_cons_of_mem h hx)
        · intro hx
          rcases hx with hx | hx
          · exact Or.inl hx
          · rcases List.mem_cons.1 hx with rfl | hx'
            · exact Or.inl hh
            · exact Or.inr hx'
      · rw [if_neg hh, ih (acc ++ [h])]
        simp only [List.mem_append, List.mem_singleton, List.mem_cons]
        tauto
  unfold pyDedup
  rw [key l []]
  simp

theorem pyDedup_nodup {α : Type} [DecidableEq α] (l : List α) : (pyDedup l).Nodup := by
  have key : ∀ (l : List α) (acc : List α), acc.Nodup →
      (l.foldl (fun acc x => if x ∈ acc then acc else acc ++ [x]) acc).Nodup := by
    intro l
    induction l with
    | nil => intro acc h; exact h
    | cons h t ih =>
      intro acc hacc
      simp only [List.foldl_cons]
      by_cases hh : h ∈ acc
      · rw [if_pos hh]; exact ih acc hacc
      · rw [if_neg hh]
        apply ih
        rw [List.nodup_append]
        exact ⟨hacc, List.nodup_singleton h, by simpa using hh⟩
  exact key l [] List.nodup_nil

theorem isAbsLink_keptLink (href0 : String) (h : isAbsLink (pyStrip href0) = true) :
    keptLink href0 = some (pyStrip href0) := by
  unfold keptLink
  unfold isAbsLink at h
  have hbad : (strStartsWith (pyStrip href0) "mailto:" || strStartsWith (pyStrip href0) "tel:"
      || strStartsWith (pyStrip href0) "#" || strStartsWith (pyStrip href0) "javascript:") = false := by
    rcases (Bool.or_eq_true _ _).mp h with hx | hx
    · have ht := List.prefix_iff_eq_append.mp (List.isPrefixOf_iff_prefix.mp hx)
      unfold strStartsWith
      rw [← ht]
      simp [List.isPrefixOf]
    · have ht := List.prefix_iff_eq_append.mp (List.isPrefixOf_iff_prefix.mp hx)
      unfold strStartsWith
      rw [← ht]
      simp [List.isPrefixOf]
  have hne : pyStrip href0 ≠ "" := by
    intro he
    rw [he] at h
    simp [strStartsWith, List.isPrefixOf] at h
  rw [if_neg hne, hbad]
  simp

theorem keptLink_eq_some (href0 t : String) (h : keptLink href0 = some t) :
    t = pyStrip href0 := by
  simp only [keptLink] at h
  split_ifs at h
  · exact (Option.some.inj h).symm

theorem mem_internalRaw_abs (bh : String) (hrefs : List String) (s : String)
    (habs : isAbsLink s = true) :
    s ∈ internalRaw bh hrefs ↔
      ((∃ href ∈ hrefs, pyStrip href = s) ∧
        bh ≠ "" ∧ get_hostname s ≠ "" ∧ get_hostname s = bh) := by
  unfold internalRaw
  rw [List.mem_filterMap]
  constructor
  · rintro ⟨a, ha, hfa⟩
    rcases hk : keptLink a with - | t
    · rw [hk] at hfa; exact absurd hfa (by simp)
    · rw [hk] at hfa
      dsimp only at hfa
      have ht : t = pyStrip a := keptLink_eq_some a t hk
      by_cases habt : isAbsLink t = true
      · rw [if_pos habt] at hfa
        by_cases hcond : bh ≠ "" ∧ get_hostname t ≠ "" ∧ get_hostname t = bh
        · rw [if_pos hcond] at hfa
          have : t = s := by simpa using hfa
          subst this
          exact ⟨⟨a, ha, ht.symm⟩, hcond⟩
        · rw [if_neg hcond] at hfa
          exact absurd hfa (by simp)
      · have habf : isAbsLink t = false := by
          cases hx : isAbsLink t
          · rfl
          · exact absurd hx habt
        rw [habf] at hfa
        simp only [Bool.false_eq_true, if_false] at hfa
        have : t = s := by simpa using hfa
        subst this
        rw [habs] at habf
        exact absurd habf (by simp)
  · rintro ⟨⟨href, hh, hps⟩, hcond⟩
    refine ⟨href, hh, ?_⟩
    have hk : keptLink href = some (pyStrip href) :=
      isAbsLink_keptLink href (by rw [hps]; exact habs)
    rw [hk]
    dsimp only
    rw [hps, if_pos habs, if_pos hcond]

theorem mem_externalRaw_abs (bh : String) (hrefs : List String) (s : String)
    (habs : isAbsLink s = true) :
    s ∈ externalRaw bh hrefs ↔
      ((∃ href ∈ hrefs, pyStrip href = s) ∧
        ¬ (bh ≠ "" ∧ get_hostname s ≠ "" ∧ get_hostname s = bh)) := by
  unfold externalRaw
  rw [List.mem_filterMap]
  constructor
  · rintro ⟨a, ha, hfa⟩
    rcases hk : keptLink a with - | t
    · rw [hk] at hfa; exact absurd hfa (by simp)
    · rw [hk] at hfa
      dsimp only at hfa
      have ht : t = pyStrip a := keptLink_eq_some a t hk
      by_cases habt : isAbsLink t = true
      · rw [if_pos habt] at hfa
        by_cases hcond : bh ≠ "" ∧ get_hostname t ≠ "" ∧ get_hostname t = bh
        · rw [if_pos hcond] at hfa
          exact absurd hfa (by simp)
        · rw [if_neg hcond] at hfa
          have : t = s := by simpa using hfa
          subst this
          exact ⟨⟨a, ha, ht.symm⟩, hcond⟩
      · have habf : isAbsLink t = false := by
          cases hx : isAbsLink t
          · rfl
          · exact absurd hx habt
        rw [habf] at hfa
        simp at hfa
  · rintro ⟨⟨href, hh, hps⟩, hcond⟩
    refine ⟨href, hh, ?_⟩
    have hk : keptLink href = some (pyStrip href) :=
      isAbsLink_keptLink href (by rw [hps]; exact habs)
    rw [hk]
    dsimp only
    rw [hps, if_pos habs, if_neg hcond]

theorem mem_internalRaw_rel (bh : String) (hrefs : List String) (href : String)
    (hh : href ∈ hrefs) (hk : keptLink href = some (pyStrip href))
    (habs : isAbsLink (pyStrip href) = false) :
    pyStrip href ∈ internalRaw bh hrefs := by
  unfold internalRaw
  rw [List.mem_filterMap]
  refine ⟨href, hh, ?_⟩
  rw [hk]
  dsimp only
  rw [habs]
  simp

/-- C10: with a hostname-less base URL (empty string, or the synthetic
`"(pasted)"` URL), every kept absolute http(s) href is classified external;
in general an absolute href lands in the internal list iff the base hostname
is non-empty and equals the href's hostname (both already lowercased by
`get_hostname`); kept relative hrefs are always internal; and both result
lists are deduplicated. -/
theorem C10_paste_links_external :
    (baseHostOf "" = "" ∧ baseHostOf "(pasted)" = "") ∧
    (∀ (hrefs : List String) (base_url : String),
       baseHostOf base_url = "" →
       ∀ href ∈ hrefs, isAbsLink (pyStrip href) = true →
         pyStrip href ∈ (extract_links hrefs base_url).2 ∧
           pyStrip href ∉ (extract_links hrefs base_url).1) ∧
    (∀ (hrefs : List String) (base_url : String) (href : String), href ∈ hrefs →
       isAbsLink (pyStrip href) = true →
         (pyStrip href ∈ (extract_links hrefs base_url).1 ↔
           (baseHostOf base_url ≠ "" ∧ get_hostname (pyStrip href) ≠ "" ∧
             get_hostname (pyStrip href) = baseHostOf base_url))) ∧
    (∀ (hrefs : List String) (base_url : String) (href : String), href ∈ hrefs →
       pyStrip href ≠ "" →
       (strStartsWith (pyStrip href) "mailto:" || strStartsWith (pyStrip href) "tel:"
         || strStartsWith (pyStrip href) "#"
         || strStartsWith (pyStrip href) "javascript:") = false →
       isAbsLink (pyStrip href) = false →
         pyStrip href ∈ (extract_links hrefs base_url).1) ∧
    (∀ (hrefs : List String) (base_url : String),
       (extract_links hrefs base_url).1.Nodup ∧ (extract_links hrefs base_url).2.Nodup) := by
  refine ⟨⟨rfl, rfl⟩, ?_, ?_, ?_, ?_⟩
  · intro hrefs base_url hb href hh habs
    rw [extract_links_eq]
    simp only [pyDedup_mem]
    constructor
    · rw [mem_externalRaw_abs _ _ _ habs]
      refine ⟨⟨href, hh, rfl⟩, ?_⟩
      rintro ⟨hbne, -, -⟩
      exact hbne hb
    · rw [mem_internalRaw_abs _ _ _ habs]
      rintro ⟨-, hbne, -, -⟩
      exact hbne hb
  · intro hrefs base_url href hh habs
    rw [extract_links_eq]
    simp only [pyDedup_mem]
    rw [mem_internalRaw_abs _ _ _ habs]
    constructor
    · rintro ⟨-, hc⟩
      exact hc
    · intro hc
      exact ⟨⟨href, hh, rfl⟩, hc⟩
  · intro hrefs base_url href hh hne hbad habs
    rw [extract_links_eq]
    simp only [pyDedup_mem]
    apply mem_internalRaw_rel _ _ _ hh _ habs
    unfold keptLink
    rw [if_neg hne, hbad]
    simp
  · intro hrefs base_url
    rw [extract_links_eq]
    exact ⟨pyDedup_nodup _, pyDedup_nodup _⟩

theorem C10_witness :
    ("https://Ext.com/x" ∈ (extract_links ["https://Ext.com/x", "/om"] "(pasted)").2 ∧
      "https://Ext.com/x" ∉ (extract_links ["https://Ext.com/x", "/om"] "(pasted)").1) ∧
    ("https://a.dk/x" ∈ (extract_links ["https://a.dk/x"] "https://A.dk/side").1) ∧
    ("/om" ∈ (extract_links ["https://Ext.com/x", "/om"] "(pasted)").1) ∧
    ((extract_links ["https://Ext.com/x", "/om"] "(pasted)").1.Nodup ∧
      (extract_links ["https://Ext.com/x", "/om"] "(pasted)").2.Nodup) := by
  have h := C10_paste_links_external
  refine ⟨?_, ?_, ?_, h.2.2.2.2 ["https://Ext.com/x", "/om"] "(pasted)"⟩
  · have := h.2.1 ["https://Ext.com/x", "/om"] "(pasted)" (by decide)
      "https://Ext.com/x" (by decide) (by decide)
    simpa using this
  · have := (h.2.2.1 ["https://a.dk/x"] "https://A.dk/side" "https://a.dk/x"
      (by decide) (by decide)).mpr (by decide)
    simpa using this
  · have := h.2.2.2.1 ["https://Ext.com/x", "/om"] "(pasted)" "/om"
      (by decide) (by decide) (by decide) (by decide)
    simpa using this

/-! ## Findings list post-processing (app.py lines 170-181, 1961-1973,
2187-2253) -/

/-- app.py `Finding` dataclass. -/
structure Finding where
  pillar : String
  severity : String
  title : String
  why : String
  how : String
  impact : ℤ
  effort_minutes : ℤ
  evidence : Option String
  snippet : Option String
deriving DecidableEq

/-- app.py `sev_rank = {"Critical": 0, "High": 1, "Medium": 2, "Low": 3}` with
`.get(f.severity, 9)`. -/
def sevRank (sev : String) : ℕ :=
  if sev = "Critical" then 0
  else if sev = "High" then 1
  else if sev = "Medium" then 2
  else if sev = "Low" then 3
  else 9

/-- Lexicographic comparison of the Python sort key
`(sev_rank, -impact, effort_minutes)` (app.py lines 1961-1962 and 2252-2253). -/
def findingKeyLe (f g : Finding) : Bool :=
  decide (sevRank f.severity < sevRank g.severity ∨
    (sevRank f.severity = sevRank g.severity ∧
      (g.impact < f.impact ∨
        (f.impact = g.impact ∧ f.effort_minutes ≤ g.effort_minutes))))

/-- `findings.sort(key=...)` (stable sort by the severity/impact/effort key). -/
def sortFindings (fs : List Finding) : List Finding := sortBy findingKeyLe fs

/-- The dedup key `(f.pillar.strip().lower(), f.title.strip().lower())`
(app.py line 1968). -/
def findingKey (f : Finding) : String × String :=
  (pyLower (pyStrip f.pillar), pyLower (pyStrip f.title))

/-- app.py lines 1964-1973: drop findings whose `(pillar, title)` key was
already seen, keeping first occurrences. -/
def dedupStep (acc : List Finding × List (String × String)) (f : Finding) :
    List Finding × List (String × String) :=
  if findingKey f ∈ acc.2 then acc else (acc.1 ++ [f], acc.2 ++ [findingKey f])

/-- app.py lines 1964-1973 main fold. -/
def dedupFindings (fs : List Finding) : List Finding :=
  (fs.foldl dedupStep ([], [])).1

/-- app.py `_severity_from_points` (lines 2187-2199). -/
def severityFromPoints (p : ℚ) (pillar_name : String) : String :=
  if pillar_name = "Indexability" then
    if 3 ≤ p then "Critical"
    else if 3/2 ≤ p then "High"
    else if 1 ≤ p then "Medium" else "Low"
  else if 3 ≤ p then "High"
  else if 3/2 ≤ p then "Medium"
  else "Low"

/-- app.py `_impact_from_points` (lines 2201-2211). -/
def impactFromPoints (p : ℚ) : ℤ :=
  if 3 ≤ p then 5
  else if 2 ≤ p then 4
  else if 1 ≤ p then 3
  else if 4/5 ≤ p then 2
  else 1

/-- app.py `_already_covered` (lines 2213-2223): an equal or
substring-related title already present for the pillar. -/
def alreadyCovered (findings : List Finding) (pillar_name label : String) : Bool :=
  let ll := pyLower (pyStrip label)
  findings.any (fun f =>
    if f.pillar ≠ pillar_name then false
    else
      let t := pyLower (pyStrip f.title)
      if t = "" then false
      else ll == t || strContains t ll || strContains ll t)

/-- Python `f"... {pts:.1f}"` on a rational (fixed one decimal,
round half to even).  Only used in evidence strings. -/
def fmt1 (q : ℚ) : String :=
  let n := pyRound (10 * q)
  toString (n / 10) ++ "." ++ toString (n.natAbs % 10)

/-- The Finding appended for one unmet requirement (app.py lines 2238-2249). -/
def requirementFinding (pillar : String) (label detail : String) (pts : ℚ) : Finding :=
  ⟨pillar, severityFromPoints pts pillar, label,
    "Dette signal mangler og trækker scoren ned.",
    (if detail = "" then "Tilføj/ret dette signal på siden." else detail),
    impactFromPoints pts,
    (if pillar ≠ "Indexability" then 20 else 10),
    some (if 0 < pts then "Mangler · ≈ +" ++ fmt1 pts else "Mangler"),
    none⟩

/-- One iteration of the injection loop body (app.py lines 2227-2249). -/
def injectStep (pillar : String) (fs : List Finding) (r : Req) : List Finding :=
  if r.ok then fs
  else
    let label := pyStrip r.label
    let detail := pyStrip r.detail
    if label = "" then fs
    else if alreadyCovered fs pillar label then fs
    else fs ++ [requirementFinding pillar label detail r.impactPoints]

/-- app.py lines 2225-2249: inject each unmet requirement as a finding unless
an equivalent finding for that pillar is already present. -/
def injectRequirements (findings : List Finding) (table : List (String × List Req)) :
    List Finding :=
  table.foldl (fun fs pr => pr.2.foldl (injectStep pr.1) fs) findings

/-- app.py lines 1961-1973 then 2225-2253: sort, dedup, inject the unmet
requirements, final sort. -/
def finalizeFindings (hand : List Finding) (table : List (String × List Req)) :
    List Finding :=
  sortFindings (injectRequirements (dedupFindings (sortFindings hand)) table)

/-! ## Sorting and deduplication facts -/

theorem insertSorted_perm {α : Type} (le : α → α → Bool) (x : α) (l : List α) :
    (insertSorted le x l).Perm (x :: l) := by
  induction l with
  | nil => exact List.Perm.refl _
  | cons y ys ih =>
    unfold insertSorted
    by_cases h : le x y = true
    · rw [if_pos h]
    · rw [if_neg h]
      exact (ih.cons y).trans (List.Perm.swap x y ys)

theorem sortBy_perm {α : Type} (le : α → α → Bool) (l : List α) :
    (sortBy le l).Perm l := by
  induction l with
  | nil => exact List.Perm.refl _
  | cons x xs ih =>
    unfold sortBy
    simp only [List.foldr_cons]
    exact (insertSorted_perm le x _).trans (ih.cons x)

theorem insertSorted_sorted {α : Type} (le : α → α → Bool)
    (htot : ∀ a b, le a b = true ∨ le b a = true)
    (htrans : ∀ a b c, le a b = true → le b c = true → le a c = true)
    (x : α) (l : List α) (h : l.Sorted (fun a b => le a b = true)) :
    (insertSorted le x l).Sorted (fun a b => le a b = true) := by
  induction l with
  | nil => simp [insertSorted]
  | cons y ys ih =>
    rw [List.sorted_cons] at h
    unfold insertSorted
    by_cases hxy : le x y = true
    · rw [if_pos hxy]
      rw [List.sorted_cons]
      constructor
      · intro b hb
        rcases List.mem_cons.1 hb with rfl | hb'
        · exact hxy
        · exact htrans x y b hxy (h.1 b hb')
      · rw [List.sorted_cons]
        exact h
    · rw [if_neg hxy]
      rw [List.sorted_cons]
      constructor
      · intro b hb
        have hb' : b ∈ x :: ys := (insertSorted_perm le x ys).mem_iff.1 hb
        rcases List.mem_cons.1 hb' with hbx | hb''
        · rw [hbx]
          rcases htot x y with hc | hc
          · exact absurd hc hxy
          · exact hc
        · exact h.1 b hb''
      · exact ih h.2

theorem sortBy_sorted {α : Type} (le : α → α → Bool)
    (htot : ∀ a b, le a b = true ∨ le b a = true)
    (htrans : ∀ a b c, le a b = true → le b c = true → le a c = true)
    (l : List α) : (sortBy le l).Sorted (fun a b => le a b = true) := by
  induction l with
  | nil => simp [sortBy]
  | cons x xs ih =>
    unfold sortBy
    simp only [List.foldr_cons]
    exact insertSorted_sorted le htot htrans x _ ih

theorem findingKeyLe_total : ∀ f g, findingKeyLe f g = true ∨ findingKeyLe g f = true := by
  intro f g
  unfold findingKeyLe
  simp only [decide_eq_true_eq]
  omega

theorem findingKeyLe_trans :
    ∀ f g h, findingKeyLe f g = true → findingKeyLe g h = true → findingKeyLe f h = true := by
  intro f g h
  unfold findingKeyLe
  simp only [decide_eq_true_eq]
  omega

theorem dropWhile_idem {α : Type} (p : α → Bool) (l : List α) :
    List.dropWhile p (List.dropWhile p l) = List.dropWhile p l := by
  induction l with
  | nil => rfl
  | cons c t ih =>
    rw [List.dropWhile_cons]
    by_cases h : p c = true
    · rw [if_pos h]
      exact ih
    · rw [if_neg h, List.dropWhile_cons, if_neg h]

theorem dropWhile_fix_head {α : Type} (p : α → Bool) (c : α) (t : List α)
    (h : List.dropWhile p (c :: t) = c :: t) : p c = false := by
  cases hc : p c
  · rfl
  · rw [List.dropWhile_cons, if_pos hc] at h
    have := (List.dropWhile_suffix p (l := t)).length_le
    rw [h] at this
    simp at this

theorem dropWhile_trimmed (p : Char → Bool) (l : List Char) :
    List.dropWhile p (((List.dropWhile p l).reverse.dropWhile p).reverse) =
      ((List.dropWhile p l).reverse.dropWhile p).reverse := by
  have hpre : ((List.dropWhile p l).reverse.dropWhile p).reverse <+: List.dropWhile p l := by
    have hsuf := List.dropWhile_suffix p (l := (List.dropWhile p l).reverse)
    have := List.reverse_prefix.2 hsuf
    simpa using this
  rcases hrs : ((List.dropWhile p l).reverse.dropWhile p).reverse with - | ⟨c, t⟩
  · rfl
  · rw [hrs] at hpre
    rcases hpre with ⟨rest, hrest⟩
    have hfix : List.dropWhile p (List.dropWhile p l) = List.dropWhile p l := dropWhile_idem p l
    rw [← hrest] at hfix
    have hc : p c = false := by
      cases hpc : p c
      · rfl
      · rw [List.cons_append, List.dropWhile_cons, if_pos hpc] at hfix
        have := (List.dropWhile_suffix p (l := t ++ rest)).length_le
        rw [hfix] at this
        simp at this
    rw [List.dropWhile_cons, if_neg (by rw [hc]; exact Bool.false_ne_true)]

theorem pyStrip_idem (s : String) : pyStrip (pyStrip s) = pyStrip s := by
  unfold pyStrip
  congr 1
  have hA := dropWhile_trimmed isPyWS s.data
  rw [show (String.mk (((s.data.dropWhile isPyWS).reverse.dropWhile isPyWS).reverse)).data =
    ((s.data.dropWhile isPyWS).reverse.dropWhile isPyWS).reverse from rfl]
  rw [hA]
  rw [List.reverse_reverse]
  rw [dropWhile_idem]

theorem pyLower_ne_empty (s : String) (h : s ≠ "") : pyLower s ≠ "" := by
  intro he
  apply h
  unfold pyLower at he
  have hdata : s.data.map pyCharLower = [] := congrArg String.data he
  have : s.data = [] := List.map_eq_nil_iff.mp hdata
  cases s
  simp_all

/-- Two findings sharing the pillar and the normalized (stripped, lowered)
title. -/
def titleClash (f g : Finding) : Prop :=
  f.pillar = g.pillar ∧ pyLower (pyStrip f.title) = pyLower (pyStrip g.title)

theorem dedupFoldl_invariant (fs : List Finding) :
    ∀ acc : List Finding × List (String × String),
      (∀ g ∈ acc.1, findingKey g ∈ acc.2) →
      acc.1.Pairwise (fun a b => findingKey a ≠ findingKey b) →
      ((fs.foldl dedupStep acc).1.Pairwise (fun a b => findingKey a ≠ findingKey b) ∧
        ∀ g ∈ (fs.foldl dedupStep acc).1, findingKey g ∈ (fs.foldl dedupStep acc).2) := by
  induction fs with
  | nil => intro acc h1 h2; exact ⟨h2, h1⟩
  | cons f t ih =>
    intro acc h1 h2
    simp only [List.foldl_cons]
    by_cases hmem : findingKey f ∈ acc.2
    · rw [show dedupStep acc f = acc by unfold dedupStep; rw [if_pos hmem]]
      exact ih acc h1 h2
    · rw [show dedupStep acc f = (acc.1 ++ [f], acc.2 ++ [findingKey f]) by
        unfold dedupStep; rw [if_neg hmem]]
      apply ih
      · intro g hg
        rcases List.mem_append.1 hg with hg' | hg'
        · exact List.mem_append_left _ (h1 g hg')
        · simp only [List.mem_singleton] at hg'
          rw [hg']
          exact List.mem_append_right _ (List.mem_singleton_self _)
      · rw [List.pairwise_append]
        refine ⟨h2, List.pairwise_singleton _ _, ?_⟩
        intro a ha b hb
        simp only [List.mem_singleton] at hb
        rw [hb]
        intro he
        exact hmem (he ▸ h1 a ha)

theorem dedupFindings_pairwise (fs : List Finding) :
    (dedupFindings fs).Pairwise (fun a b => findingKey a ≠ findingKey b) := by
  unfold dedupFindings
  exact (dedupFoldl_invariant fs ([], []) (by simp) List.Pairwise.nil).1

theorem injectStep_preserve (pillar : String) (r : Req) (fs : List Finding)
    (h : fs.Pairwise (fun f g => ¬ titleClash f g)) :
    (injectStep pillar fs r).Pairwise (fun f g => ¬ titleClash f g) := by
  unfold injectStep
  by_cases hok : r.ok = true
  · rw [if_pos hok]; exact h
  · rw [if_neg hok]
    simp only
    by_cases hlab : pyStrip r.label = ""
    · rw [if_pos hlab]; exact h
    · rw [if_neg hlab]
      by_cases hcov : alreadyCovered fs pillar (pyStrip r.label) = true
      · rw [if_pos hcov]; exact h
      · rw [if_neg hcov]
        have hcov' : alreadyCovered fs pillar (pyStrip r.label) = false := by
          cases hx : alreadyCovered fs pillar (pyStrip r.label)
          · rfl
          · exact absurd hx hcov
        rw [List.pairwise_append]
        refine ⟨h, List.pairwise_singleton _ _, ?_⟩
        intro a ha b hb
        simp only [List.mem_singleton] at hb
        rw [hb]
        rintro ⟨hp, ht⟩
        have hpa : a.pillar = pillar := hp
        have hta : pyLower (pyStrip a.title) =
            pyLower (pyStrip (pyStrip r.label)) := ht
        rw [pyStrip_idem] at hta
        simp only [alreadyCovered, List.any_eq_false] at hcov'
        have hpred := hcov' a ha
        rw [if_neg (by simp [hpa])] at hpred
        have hll : pyLower (pyStrip (pyStrip r.label)) = pyLower (pyStrip r.label) := by
          rw [pyStrip_idem]
        rw [hll] at hpred
        have htne : pyLower (pyStrip a.title) ≠ "" := by
          rw [hta]
          exact pyLower_ne_empty _ hlab
        rw [if_neg htne] at hpred
        have : (pyLower (pyStrip r.label) == pyLower (pyStrip a.title)) = true := by
          rw [hta]
          exact beq_self_eq_true _
        simp [this] at hpred

theorem injectInner_preserve (pillar : String) (reqs : List Req) :
    ∀ fs : List Finding, fs.Pairwise (fun f g => ¬ titleClash f g) →
      (reqs.foldl (injectStep pillar) fs).Pairwise (fun f g => ¬ titleClash f g) := by
  induction reqs with
  | nil => intro fs h; exact h
  | cons r t ih =>
    intro fs h
    simp only [List.foldl_cons]
    exact ih _ (injectStep_preserve pillar r fs h)

theorem injectRequirements_preserve (table : List (String × List Req)) :
    ∀ fs : List Finding, fs.Pairwise (fun f g => ¬ titleClash f g) →
      (injectRequirements fs table).Pairwise (fun f g => ¬ titleClash f g) := by
  induction table with
  | nil => intro fs h; exact h
  | cons pr t ih =>
    intro fs h
    unfold injectRequirements
    simp only [List.foldl_cons]
    exact ih _ (injectInner_preserve pr.1 pr.2 fs h)

/-- C8: for every hand-authored findings list and every requirements table,
the final findings list is sorted by
`(severity rank asc, impact desc, effortMinutes asc)` and no two of its
entries share the same `(pillar, normalized title)` pair. -/
theorem C8_findings_sorted_and_unique :
    ∀ (hand : List Finding) (table : List (String × List Req)),
      (finalizeFindings hand table).Sorted (fun f g => findingKeyLe f g = true) ∧
        (finalizeFindings hand table).Pairwise (fun f g => ¬ titleClash f g) := by
  intro hand table
  constructor
  · exact sortBy_sorted findingKeyLe findingKeyLe_total findingKeyLe_trans _
  · have h1 := dedupFindings_pairwise (sortFindings hand)
    have h2 : (dedupFindings (sortFindings hand)).Pairwise (fun f g => ¬ titleClash f g) := by
      apply h1.imp
      intro a b hne hclash
      apply hne
      unfold findingKey
      rw [hclash.1, hclash.2]
    have h3 := injectRequirements_preserve table _ h2
    have hsymm : ∀ {x y : Finding}, ¬ titleClash x y → ¬ titleClash y x := by
      intro x y hx hc
      exact hx ⟨hc.1.symm, hc.2.symm⟩
    unfold finalizeFindings
    exact (List.Perm.pairwise_iff hsymm (sortBy_perm findingKeyLe _)).2 h3

/-! ## Regex-pattern heuristics (app.py lines 581-592 and 683-706) -/

/-- Python `\w` (word character) for the repertoire this code meets (ASCII
alphanumerics, underscore, Danish letters). -/
def isWordChar (c : Char) : Bool :=
  c.isAlphanum || c = '_' || c = 'æ' || c = 'ø' || c = 'å'
    || c = 'Æ' || c = 'Ø' || c = 'Å' || c = 'é' || c = 'É'

/-- Tokens of the small regex fragment the claim patterns use:
word boundary, case-insensitive literal, `\d+`, `\s*`, `\w+`. -/
inductive RTok where
  | bnd : RTok
  | lit : String → RTok
  | digits : RTok
  | ws0 : RTok
  | wplus : RTok
deriving DecidableEq

/-- Greedy matcher for a token list at a fixed position (`prev` is the
character before the position, for `\b`).  Returns the matched characters.
The claim patterns never need backtracking: each greedy run (`\d+`, `\s*`,
`\w+`) is followed by a token that cannot consume its characters, so maximal
munch agrees with Python `re` semantics on them. -/
def matchToks : List RTok → Option Char → List Char → Option (List Char)
  | [], _, _ => some []
  | RTok.bnd :: ts, prev, cs =>
    let before := match prev with | none => false | some c => isWordChar c
    let after := match cs with | [] => false | c :: _ => isWordChar c
    if before ≠ after then matchToks ts prev cs else none
  | RTok.lit s :: ts, prev, cs =>
    if (pyLower s).data.isPrefixOf (cs.map pyCharLower) then
      let n := s.data.length
      let taken := cs.take n
      let newPrev := match taken.getLast? with | some c => some c | none => prev
      (matchToks ts newPrev (cs.drop n)).map (fun m => taken ++ m)
    else none
  | RTok.digits :: ts, prev, cs =>
    let run := cs.takeWhile Char.isDigit
    if run = [] then none
    else
      let newPrev := match run.getLast? with | some c => some c | none => prev
      (matchToks ts newPrev (cs.drop run.length)).map (fun m => run ++ m)
  | RTok.ws0 :: ts, prev, cs =>
    let run := cs.takeWhile isPyWS
    let newPrev := match run.getLast? with | some c => some c | none => prev
    (matchToks ts newPrev (cs.drop run.length)).map (fun m => run ++ m)
  | RTok.wplus :: ts, prev, cs =>
    let run := cs.takeWhile isWordChar
    if run = [] then none
    else
      let newPrev := match run.getLast? with | some c => some c | none => prev
      (matchToks ts newPrev (cs.drop run.length)).map (fun m => run ++ m)

/-- Leftmost search (`re.search`): try each position left to right. -/
def searchFrom (pat : List RTok) : Option Char → List Char → Option (List Char)
  | prev, cs =>
    match matchToks pat prev cs with
    | some m => some m
    | none =>
      match cs with
      | [] => none
      | c :: rest => searchFrom pat (some c) rest

/-- `re.search(pattern, text, re.I)` returning `m.group(0)`. -/
def reSearch (pat : List RTok) (text : String) : Option String :=
  (searchFrom pat none text.data).map String.mk

/-- The `detect_unsourced_claims` patterns (app.py lines 684-697), in source
order. -/
def claimPatterns : List (List RTok) :=
  [ [RTok.bnd, RTok.lit "100%", RTok.bnd],
    [RTok.bnd, RTok.digits, RTok.ws0, RTok.lit "års", RTok.bnd],
    [RTok.bnd, RTok.lit "garanti", RTok.bnd],
    [RTok.bnd, RTok.lit "godkendt", RTok.bnd],
    [RTok.bnd, RTok.lit "certificer", RTok.wplus, RTok.bnd],
    [RTok.bnd, RTok.lit "Miljøstyrels", RTok.wplus, RTok.bnd],
    [RTok.bnd, RTok.lit "ISO", RTok.ws0, RTok.digits, RTok.bnd],
    [RTok.bnd, RTok.lit "EU", RTok.ws0, RTok.lit "Ecolabel", RTok.bnd],
    [RTok.bnd, RTok.lit "Svanemærk", RTok.wplus, RTok.bnd],
    [RTok.bnd, RTok.lit "test", RTok.wplus, RTok.bnd],
    [RTok.bnd, RTok.lit "laborator", RTok.wplus, RTok.bnd],
    [RTok.bnd, RTok.lit "miljøvenlig", RTok.bnd] ]

/-- app.py `detect_social_links` (lines 581-587): external links containing a
recognized social-platform domain, as a sorted set. -/
def social_domains : List String :=
  [ "facebook.com", "instagram.com", "linkedin.com", "tiktok.com",
    "youtube.com", "x.com", "twitter.com", "trustpilot.com",
    "google.com/maps" ]

def detect_social_links (ext_links : List String) : List String :=
  pySortedSet (ext_links.filter
    (fun u => social_domains.any (fun d => strContains (pyLower u) d)))

/-- app.py `count_external_citations` (lines 589-592): distinct external
links that are not social links. -/
def count_external_citations (ext_links : List String) : ℕ :=
  (pyDedup (ext_links.filter
    (fun u => ¬ u ∈ detect_social_links ext_links))).length

/-- app.py `detect_unsourced_claims` (lines 683-706): empty when more than
one external citation exists; otherwise the set of first matches of the
claim patterns (Python returns `list(set(matches))` in unspecified set
order; the embedding fixes first-occurrence order, same set). -/
def detect_unsourced_claims (text : String) (ext_links : List String) : List String :=
  if 1 < count_external_citations ext_links then []
  else pyDedup (claimPatterns.filterMap (fun p => reSearch p text))

/-- app.py line 1896 guard: the "Udokumenterede påstande" finding is appended
iff `unsourced_claims` is non-empty and `external_citations == 0`. -/
def unsourcedClaimsFindingPresent (text : String) (ext_links : List String) : Bool :=
  decide (detect_unsourced_claims text ext_links ≠ [] ∧
    count_external_citations ext_links = 0)

/-- C9: the unsourced-claims finding appears only when the external-citation
count is exactly zero and at least one claim pattern matches the text, and
the detection returns no matches whenever more than one external citation
exists. -/
theorem C9_unsourced_claims_only_without_citations :
    ∀ (text : String) (ext_links : List String),
      (unsourcedClaimsFindingPresent text ext_links = true →
        count_external_citations ext_links = 0 ∧
          ∃ p ∈ claimPatterns, (reSearch p text).isSome = true) ∧
      (1 < count_external_citations ext_links →
        detect_unsourced_claims text ext_links = []) := by
  intro text ext_links
  constructor
  · intro hpres
    have h : detect_unsourced_claims text ext_links ≠ [] ∧
        count_external_citations ext_links = 0 := of_decide_eq_true hpres
    refine ⟨h.2, ?_⟩
    have hne := h.1
    unfold detect_unsourced_claims at hne
    rw [if_neg (by rw [h.2]; omega)] at hne
    rcases List.exists_mem_of_ne_nil _ hne with ⟨x, hx⟩
    have hx' := (pyDedup_mem _ x).1 hx
    rcases List.mem_filterMap.1 hx' with ⟨p, hp, hsome⟩
    exact ⟨p, hp, by rw [hsome]; rfl⟩
  · intro hgt
    unfold detect_unsourced_claims
    rw [if_pos hgt]

theorem C9_witness :
    (count_external_citations [] = 0 ∧
      ∃ p ∈ claimPatterns, (reSearch p "100% garanti").isSome = true) ∧
      detect_unsourced_claims "100% garanti"
        ["https://mst.dk/a", "https://ds.dk/b"] = [] := by
  have h := C9_unsourced_claims_only_without_citations
  exact ⟨(h "100% garanti" []).1 (by decide),
    (h "100% garanti" ["https://mst.dk/a", "https://ds.dk/b"]).2 (by decide)⟩

/-! ## JSON-LD extraction (app.py lines 195-199, 299-341, 563-579) -/

/- JSON values (`json.loads` output).  Python lists and dicts are modelled
by the mutually inductive `JArr`/`JObj` spines; numbers keep their source
text (no claim depends on numeric value). -/
mutual
inductive J where
  | null : J
  | jbool : Bool → J
  | num : String → J
  | str : String → J
  | arr : JArr → J
  | obj : JObj → J
inductive JArr where
  | nil : JArr
  | cons : J → JArr → JArr
inductive JObj where
  | nil : JObj
  | cons : String → J → JObj → JObj
end

/-- JSON whitespace accepted by `json.loads`. -/
def isJsonWS (c : Char) : Bool := c = ' ' || c = '\t' || c = '\n' || c = '\r'

/-- Python dict lookup `x.get(key)` (keys are unique by construction). -/
def objGet : JObj → String → Option J
  | JObj.nil, _ => none
  | JObj.cons k v t, key => if k == key then some v else objGet t key

/-- Python dict assignment `d[k] = v`: overwrite in place, else append. -/
def objUpsert : JObj → String → J → JObj
  | JObj.nil, k, v => JObj.cons k v JObj.nil
  | JObj.cons k0 v0 t, k, v =>
    if k0 == k then JObj.cons k0 v t else JObj.cons k0 v0 (objUpsert t k v)

def jArrToList : JArr → List J
  | JArr.nil => []
  | JArr.cons h t => h :: jArrToList t

/-- Hexadecimal digit value. -/
def hexVal (c : Char) : Option Nat :=
  if c.isDigit then some (c.toNat - 48)
  else if 'a' ≤ c ∧ c ≤ 'f' then some (c.toNat - 87)
  else if 'A' ≤ c ∧ c ≤ 'F' then some (c.toNat - 55)
  else none

/-- JSON string body parser (after the opening quote).  `\uXXXX` escapes are
decoded as single code points (surrogate pairing is outside the repertoire
of the pages this tool meets). -/
def parseJStr : List Char → Option (List Char × List Char)
  | [] => none
  | '"' :: rest => some ([], rest)
  | '\\' :: esc =>
    match esc with
    | 'u' :: a :: b :: c :: d :: rest =>
      match hexVal a, hexVal b, hexVal c, hexVal d with
      | some ha, some hb, some hc, some hd =>
        (parseJStr rest).map
          (fun pr => (Char.ofNat (((ha * 16 + hb) * 16 + hc) * 16 + hd) :: pr.1, pr.2))
      | _, _, _, _ => none
    | e :: rest =>
      let c? : Option Char :=
        if e = '"' then some '"'
        else if e = '\\' then some '\\'
        else if e = '/' then some '/'
        else if e = 'b' then some '\x08'
        else if e = 'f' then some '\x0c'
        else if e = 'n' then some '\n'
        else if e = 'r' then some '\r'
        else if e = 't' then some '\t'
        else none
      match c? with
      | none => none
      | some c => (parseJStr rest).map (fun pr => (c :: pr.1, pr.2))
    | [] => none
  | c :: rest =>
    if c.val ≤ 0x1f then none
    else (parseJStr rest).map (fun pr => (c :: pr.1, pr.2))

/-- Optional fraction part `.digits+`. -/
def parseFrac : List Char → Option (List Char × List Char)
  | '.' :: r =>
    let fr := r.takeWhile Char.isDigit
    if fr.isEmpty then none else some ('.' :: fr, r.drop fr.length)
  | cs => some ([], cs)

/-- Optional exponent part `[eE][+-]?digits+`. -/
def parseExp : List Char → Option (List Char × List Char)
  | c :: r =>
    if c = 'e' ∨ c = 'E' then
      let sr : List Char × List Char :=
        match r with
        | '+' :: rr => (['+'], rr)
        | '-' :: rr => (['-'], rr)
        | _ => ([], r)
      let dr := sr.2.takeWhile Char.isDigit
      if dr.isEmpty then none else some (c :: sr.1 ++ dr, sr.2.drop dr.length)
    else some ([], c :: r)
  | [] => some ([], [])

/-- JSON number literal (strict grammar: `-?(0|[1-9]\d*)(\.\d+)?([eE][+-]?\d+)?`),
returning its source text. -/
def parseJNum (cs : List Char) : Option (List Char × List Char) :=
  let sr : List Char × List Char :=
    match cs with
    | '-' :: r => (['-'], r)
    | _ => ([], cs)
  let intRun := sr.2.takeWhile Char.isDigit
  if intRun.isEmpty then none
  else if 1 < intRun.length ∧ intRun.head? = some '0' then none
  else
    match parseFrac (sr.2.drop intRun.length) with
    | none => none
    | some (fr, rest2) =>
      match parseExp rest2 with
      | none => none
      | some (ex, rest3) => some (sr.1 ++ intRun ++ fr ++ ex, rest3)

/- Strict JSON value parser (`json.loads` grammar), fuel-indexed; the fuel
decreases at each nesting/iteration step and each step consumes input, so
`2 * length + 4` fuel at the top level is always sufficient. -/
mutual
def parseJVal : Nat → List Char → Option (J × List Char)
  | 0, _ => none
  | Nat.succ fuel, cs =>
    match cs.dropWhile isJsonWS with
    | [] => none
    | c :: rest =>
      if c = 'n' then
        if ['u', 'l', 'l'].isPrefixOf rest then some (J.null, rest.drop 3) else none
      else if c = 't' then
        if ['r', 'u', 'e'].isPrefixOf rest then some (J.jbool true, rest.drop 3) else none
      else if c = 'f' then
        if ['a', 'l', 's', 'e'].isPrefixOf rest then some (J.jbool false, rest.drop 4)
        else none
      else if c = '"' then
        match parseJStr rest with
        | some (s, r) => some (J.str (String.mk s), r)
        | none => none
      else if c = '[' then
        match rest.dropWhile isJsonWS with
        | ']' :: r => some (J.arr JArr.nil, r)
        | _ =>
          match parseJArrItems fuel rest with
          | some (items, r) => some (J.arr items, r)
          | none => none
      else if c = '{' then
        match rest.dropWhile isJsonWS with
        | '}' :: r => some (J.obj JObj.nil, r)
        | _ =>
          match parseJObjItems fuel rest JObj.nil with
          | some (kvs, r) => some (J.obj kvs, r)
          | none => none
      else
        match parseJNum (c :: rest) with
        | some (txt, r) => some (J.num (String.mk txt), r)
        | none => none

def parseJArrItems : Nat → List Char → Option (JArr × List Char)
  | 0, _ => none
  | Nat.succ fuel, cs =>
    match parseJVal fuel cs with
    | none => none
    | some (v, r) =>
      match r.dropWhile isJsonWS with
      | ',' :: r2 =>
        match parseJArrItems fuel r2 with
        | some (items, r3) => some (JArr.cons v items, r3)
        | none => none
      | ']' :: r2 => some (JArr.cons v JArr.nil, r2)
      | _ => none

def parseJObjItems : Nat → List Char → JObj → Option (JObj × List Char)
  | 0, _, _ => none
  | Nat.succ fuel, cs, acc =>
    match cs.dropWhile isJsonWS with
    | '"' :: rest =>
      match parseJStr rest with
      | none => none
      | some (k, r) =>
        match r.dropWhile isJsonWS with
        | ':' :: r2 =>
          match parseJVal fuel r2 with
          | none => none
          | some (v, r3) =>
            let acc2 := objUpsert acc (String.mk k) v
            match r3.dropWhile isJsonWS with
            | ',' :: r4 => parseJObjItems fuel r4 acc2
            | '}' :: r4 => some (acc2, r4)
            | _ => none
        | _ => none
    | _ => none
end

/-- app.py `safe_json_loads` (lines 195-199): `json.loads` returning `None`
on any failure; trailing non-whitespace is an "Extra data" failure. -/
def safe_json_loads (s : String) : Option J :=
  match parseJVal (2 * s.data.length + 4) s.data with
  | some (v, rest) => if rest.dropWhile isJsonWS = [] then some v else none
  | none => none

/-- app.py line 306: `re.sub(r"[\x00-\x1f\x7f-\x9f]", "", ...)`. -/
def stripCtrl (s : String) : String :=
  String.mk (s.data.filter (fun c => !(c.val ≤ 0x1f || (0x7f ≤ c.val && c.val ≤ 0x9f))))

/-- app.py line 309 repair pass `re.sub(r",\s*([}\])", r"\1", s)`: drop a
comma (with following whitespace) that directly precedes a closing bracket;
scanning resumes after the bracket, as `re.sub` does.  Fuel-indexed (each
step consumes at least one character). -/
def repairAux : Nat → List Char → List Char
  | 0, cs => cs
  | Nat.succ fuel, cs =>
    match cs with
    | [] => []
    | c :: rest =>
      if c = ',' then
        let ws := rest.takeWhile isPyWS
        match rest.drop ws.length with
        | b :: tail =>
          if b = '}' ∨ b = ']' then b :: repairAux fuel tail
          else ',' :: repairAux fuel rest
        | [] => ',' :: repairAux fuel rest
      else c :: repairAux fuel rest

def repairJson (s : String) : String := String.mk (repairAux s.data.length s.data)

/-- app.py `extract_jsonld` (lines 299-313): per script block, strip control
characters from the stripped text, strict-parse, on failure repair and
reparse, silently dropping blocks that still fail.  The script-block strings
are the HTML-parsing collaborator's output. -/
def extract_jsonld (blocks : List String) : List J :=
  blocks.filterMap (fun raw =>
    if raw = "" then none
    else
      match safe_json_loads (stripCtrl (pyStrip raw)) with
      | some d => some d
      | none => safe_json_loads (repairJson (stripCtrl (pyStrip raw))))

/-- String elements of a JSON array (`@type` lists). -/
def arrStrs : JArr → List String
  | JArr.nil => []
  | JArr.cons (J.str s) t => s :: arrStrs t
  | JArr.cons _ t => arrStrs t

/- app.py `flatten_schema_types` walk, `@type` collection (lines 319-327):
string or list-of-strings `@type` values, then recurse into all values. -/
mutual
def collectTypes : J → List String
  | J.obj o =>
    (match objGet o "@type" with
      | some (J.str t) => [t]
      | some (J.arr l) => arrStrs l
      | _ => []) ++ collectTypesO o
  | J.arr l => collectTypesA l
  | _ => []
def collectTypesA : JArr → List String
  | JArr.nil => []
  | JArr.cons h t => collectTypes h ++ collectTypesA t
def collectTypesO : JObj → List String
  | JObj.nil => []
  | JObj.cons _ v t => collectTypes v ++ collectTypesO t
end

/- app.py `flatten_schema_types` walk, schema-object collection (lines
329-330): dict nodes carrying both `@context` and `@type`. -/
mutual
def collectObjs : J → List JObj
  | J.obj o =>
    (if (objGet o "@context").isSome ∧ (objGet o "@type").isSome then [o] else [])
      ++ collectObjsO o
  | J.arr l => collectObjsA l
  | _ => []
def collectObjsA : JArr → List JObj
  | JArr.nil => []
  | JArr.cons h t => collectObjs h ++ collectObjsA t
def collectObjsO : JObj → List JObj
  | JObj.nil => []
  | JObj.cons _ v t => collectObjs v ++ collectObjsO t
end

/-- Remove every occurrence of `pat` from `s` (Python `s.replace(pat, "")`),
fuel-indexed. -/
def replaceAllAux : Nat → List Char → List Char → List Char
  | 0, s, _ => s
  | Nat.succ fuel, s, pat =>
    match findSubIdx s pat with
    | none => s
    | some i => s.take i ++ replaceAllAux fuel (s.drop (i + pat.length)) pat

def strRemoveAll (s pat : String) : String :=
  String.mk (replaceAllAux s.data.length s.data pat.data)

/-- app.py `norm_schema_type` (lines 201-205). -/
def norm_schema_type (t : String) : String :=
  if t = "" then ""
  else pyStrip (strRemoveAll (strRemoveAll t "http://schema.org/") "https://schema.org/")

/-- app.py `flatten_schema_types` (lines 315-341): the sorted set of
normalized non-blank `@type` values, and the schema objects. -/
def flatten_schema_types (jsonld : List J) : List String × List JObj :=
  (pySortedSet
      (((jsonld.flatMap collectTypes).filter (fun t => pyStrip t ≠ "")).map norm_schema_type),
    jsonld.flatMap collectObjs)

/-- The lowercased `@type` strings of a schema object (app.py lines 565-567;
non-string entries of an `@type` list are outside the repertoire and are
modelled as `""`). -/
def typeStringsOf (o : JObj) : List String :=
  match objGet o "@type" with
  | some (J.str t) => [pyLower t]
  | some (J.arr l) =>
    (jArrToList l).map (fun x => match x with | J.str t => pyLower t | _ => "")
  | _ => []

/-- app.py `schema_find_org_like` (lines 563-570). -/
def schema_find_org_like (objs : List JObj) : Option JObj :=
  objs.find? (fun o =>
    ["organization", "localbusiness", "corporation"].any
      (fun k => (typeStringsOf o).contains k))

/-- app.py `schema_find_person` (lines 572-579). -/
def schema_find_person (objs : List JObj) : Option JObj :=
  objs.find? (fun o => (typeStringsOf o).contains "person")

theorem sortBy_mem {α : Type} (le : α → α → Bool) (l : List α) (x : α) :
    x ∈ sortBy le l ↔ x ∈ l :=
  (sortBy_perm le l).mem_iff

theorem pySortedSet_mem (l : List String) (x : String) :
    x ∈ pySortedSet l ↔ x ∈ l := by
  unfold pySortedSet
  rw [sortBy_mem, pyDedup_mem]

theorem extract_block_some (raw : String) (v : J) (hne : raw ≠ "")
    (h1 : safe_json_loads (stripCtrl (pyStrip raw)) = none)
    (h2 : safe_json_loads (repairJson (stripCtrl (pyStrip raw))) = some v) :
    (if raw = "" then none
     else
       match safe_json_loads (stripCtrl (pyStrip raw)) with
       | some d => some d
       | none => safe_json_loads (repairJson (stripCtrl (pyStrip raw)))) = some v := by
  rw [if_neg hne, h1]
  exact h2

theorem extract_block_none (raw : String) (hne : raw ≠ "")
    (h1 : safe_json_loads (stripCtrl (pyStrip raw)) = none)
    (h2 : safe_json_loads (repairJson (stripCtrl (pyStrip raw))) = none) :
    (if raw = "" then none
     else
       match safe_json_loads (stripCtrl (pyStrip raw)) with
       | some d => some d
       | none => safe_json_loads (repairJson (stripCtrl (pyStrip raw)))) = none := by
  rw [if_neg hne, h1]
  exact h2

/-- C6: a JSON-LD block that fails strict parsing but parses after the
trailing-comma repair pass contributes its parsed value, and all of that
value's `@type` strings (normalized) appear in `schemaTypes`; a block that
still fails after the repair pass is silently dropped, leaving exactly the
other blocks' parses (extraction is a total function: no exception path
exists). -/
theorem C6_jsonld_repair_and_drop :
    (∀ (blocks : List String) (raw : String) (v : J),
       raw ∈ blocks → raw ≠ "" →
       safe_json_loads (stripCtrl (pyStrip raw)) = none →
       safe_json_loads (repairJson (stripCtrl (pyStrip raw))) = some v →
         v ∈ extract_jsonld blocks ∧
           ∀ t ∈ collectTypes v, pyStrip t ≠ "" →
             norm_schema_type t ∈ (flatten_schema_types (extract_jsonld blocks)).1) ∧
    (∀ (pre post : List String) (raw : String),
       raw ≠ "" →
       safe_json_loads (stripCtrl (pyStrip raw)) = none →
       safe_json_loads (repairJson (stripCtrl (pyStrip raw))) = none →
         extract_jsonld (pre ++ raw :: post) = extract_jsonld (pre ++ post)) := by
  constructor
  · intro blocks raw v hmem hne h1 h2
    have hf := extract_block_some raw v hne h1 h2
    have hv : v ∈ extract_jsonld blocks := by
      unfold extract_jsonld
      exact List.mem_filterMap.2 ⟨raw, hmem, hf⟩
    refine ⟨hv, ?_⟩
    intro t ht htne
    have htypes : t ∈ (extract_jsonld blocks).flatMap collectTypes :=
      List.mem_flatMap.2 ⟨v, hv, ht⟩
    unfold flatten_schema_types
    simp only
    rw [pySortedSet_mem]
    apply List.mem_map_of_mem
    rw [List.mem_filter]
    exact ⟨htypes, by simpa using htne⟩
  · intro pre post raw hne h1 h2
    have hf := extract_block_none raw hne h1 h2
    unfold extract_jsonld
    rw [List.filterMap_append, List.filterMap_append, List.filterMap_cons, hf]

theorem C6_witness :
    (J.obj (JObj.cons "@context" (J.str "https://schema.org")
        (JObj.cons "@type" (J.str "Organization") JObj.nil)) ∈
      extract_jsonld
        ["\x7b\"@context\": \"https://schema.org\", \"@type\": \"Organization\",\x7d"] ∧
      norm_schema_type "Organization" ∈
        (flatten_schema_types (extract_jsonld
          ["\x7b\"@context\": \"https://schema.org\", \"@type\": \"Organization\",\x7d"])).1) ∧
    extract_jsonld ([] ++ "not json" :: []) = extract_jsonld ([] ++ []) := by
  have h := C6_jsonld_repair_and_drop
  have h1 := h.1
    ["\x7b\"@context\": \"https://schema.org\", \"@type\": \"Organization\",\x7d"]
    "\x7b\"@context\": \"https://schema.org\", \"@type\": \"Organization\",\x7d"
    (J.obj (JObj.cons "@context" (J.str "https://schema.org")
      (JObj.cons "@type" (J.str "Organization") JObj.nil)))
    (List.mem_singleton_self _) (by decide) rfl rfl
  exact ⟨⟨h1.1, h1.2 "Organization" (by simp [collectTypes, collectTypesO, objGet])
    (by decide)⟩, h.2 [] [] "not json" (by decide) rfl rfl⟩

/-! ## Page-type classifier and Entity Authority wiring (app.py lines
594-680 and 1446-1461) -/

/-- The heading lists the heading extractor produces. -/
structure Headings where
  h1 : List String
  h2 : List String
  h3 : List String

/-- app.py `guess_page_type` (lines 594-680).  The schema-type set is kept
as a list (only membership is consumed). -/
def guess_page_type (title : String) (headings : Headings) (text : String)
    (url : String) (schema_types : List String) : String :=
  let norm_types := (schema_types.filter (fun t => t ≠ "")).map norm_schema_type
  let t_low := pyLower title
  let h1 := pyLower (String.intercalate " " headings.h1)
  let h2 := pyLower (String.intercalate " " headings.h2)
  let hay := pyStrip (String.intercalate " " [t_low, h1, h2])
  let url_low := pyLower url
  let product_url_signals := ["/products/", "/product/", "?variant=", "/p/", "/item/", "/shop/"]
  let product_schema_signals := ["Product", "Offer", "AggregateRating", "Review", "ItemList"]
  let product_text_terms :=
    ["add to cart", "læg i kurv", "læg i indkøbskurv", "køb", "køb nu",
     "variant", "varianter", "størrelse", "farve", "lager", "på lager", "udsolgt",
     "levering", "fri fragt", "retur", "betaling", "pris", "kr", "dkk",
     "ingredients", "ingredienser", "anmeldelser", "ratings", "specifikation"]
  let has_product_schema := norm_types.any (fun t => product_schema_signals.contains t)
  let looks_like_product_url := product_url_signals.any (fun s => strContains url_low s)
  let looks_like_product_text :=
    product_text_terms.any (fun w => strContains hay w)
      || product_text_terms.any
        (fun w => strContains (pyLower (String.mk (text.data.take 2500))) w)
  if has_product_schema then "Product Page"
  else if looks_like_product_url then "Product Page"
  else if looks_like_product_text
      && (["/collections/", "/product", "/shop", "/p/"].any
        (fun s => strContains url_low s)) then "Product Page"
  else if (["service", "ydelse", "vi tilbyder", "pris", "tilbud", "bestil",
      "kontakt", "fliserens", "tagrens", "facaderens", "alge",
      "imprægner", "rengøring", "behandling", "rens", "terrasse"].any
        (fun t => strContains hay t)) then "Service Page"
  else if (["blog", "nyhed", "artikel", "guide", "sådan", "tips", "viden", "råd"].any
      (fun t => strContains hay t)) then "Content / Article"
  else if norm_types.contains "Product" || norm_types.contains "Offer" then "Product Page"
  else if text.data.length < 1500 then "General Page"
  else "General Page"

/-- app.py line 1459: `re.search(r"\b(forfatter|skrevet af|author|by)\b", text, re.I)`. -/
def author_visible_of (text : String) : Bool :=
  [[RTok.bnd, RTok.lit "forfatter", RTok.bnd],
   [RTok.bnd, RTok.lit "skrevet af", RTok.bnd],
   [RTok.bnd, RTok.lit "author", RTok.bnd],
   [RTok.bnd, RTok.lit "by", RTok.bnd]].any (fun p => (reSearch p text).isSome)

/-- The `ScoreSignals` assignment `score_and_findings` computes from its
inputs for the Entity Authority pillar (app.py lines 1446-1461); the
trailing fields are the credibility/technical/indexability leaves, which the
Entity Authority rows never read, fixed to neutral values. -/
def entitySignals (text : String) (internal_links ext_links schema_types : List String)
    (schema_objs : List JObj) (nap_phone nap_email nap_address nap_cvr : Bool)
    (page_type : String) : ScoreSignals :=
  let internal_join := pyLower (String.intercalate " " internal_links)
  ⟨(schema_find_org_like schema_objs).isSome,
    (schema_find_person schema_objs).isSome,
    schema_types.map norm_schema_type,
    nap_phone, nap_email, nap_address, nap_cvr,
    detect_social_links ext_links,
    ["/om", "about", "om-os", "about-us"].any (fun k => strContains internal_join k),
    ["/kontakt", "contact"].any (fun k => strContains internal_join k),
    ["/privacy", "privatliv", "cookie", "cookies", "gdpr"].any
      (fun k => strContains internal_join k),
    author_visible_of text,
    page_type,
    [], false, 0, false, false, 0, false, false, false, false,
    "", "", "", "", none, 200, false⟩

/-- A complete, well-formed Organization JSON-LD block (name, url, logo,
telephone, and a sameAs list of length 2), as a script-block string. -/
def orgBlock : String :=
  "\x7b\"@context\":\"https://schema.org\",\"@type\":\"Organization\",\"name\":\"Acme ApS\",\"url\":\"https://acme.dk\",\"logo\":\"https://acme.dk/logo.png\",\"telephone\":\"+45 12 34 56 78\",\"sameAs\":[\"https://www.facebook.com/acme\",\"https://www.linkedin.com/company/acme\"]\x7d"

/-- The synthetic page built around `orgBlock`: no anchors, empty visible
text (the script subtree is stripped by the text extractor), the phone
regex picks up the telephone digits from the raw HTML text, page type
computed by the classifier. -/
def orgPageSignals : ScoreSignals :=
  entitySignals "" [] []
    (flatten_schema_types (extract_jsonld [orgBlock])).1
    (flatten_schema_types (extract_jsonld [orgBlock])).2
    true false false false
    (guess_page_type "" ⟨[], [], []⟩ "" ""
      (flatten_schema_types (extract_jsonld [orgBlock])).1)

theorem missingPoints_cons (r : Req) (t : List Req) :
    missingPoints (r :: t) = (if r.ok = false then r.impactPoints else 0) + missingPoints t := by
  unfold missingPoints
  rw [List.filter_cons]
  by_cases h : r.ok = false
  · simp [h]
  · simp [h]

theorem missingPoints_filter_eq (p : Req → Bool) :
    ∀ (reqs : List Req), (∀ r ∈ reqs, p r = false → r.ok = true) →
      missingPoints reqs = missingPoints (reqs.filter p) := by
  intro reqs
  induction reqs with
  | nil => intro _; rfl
  | cons r t ih =>
    intro h
    have ht : ∀ x ∈ t, p x = false → x.ok = true :=
      fun x hx => h x (List.mem_cons_of_mem _ hx)
    rw [missingPoints_cons, List.filter_cons]
    by_cases hp : p r = true
    · rw [if_pos hp, missingPoints_cons, ih ht]
    · have hp' : p r = false := by
        cases hx : p r
        · rfl
        · exact absurd hx hp
      have hok := h r (List.mem_cons_self r t) hp'
      rw [if_neg hp, ih ht, if_neg (by rw [hok]; simp)]
      ring

/-- The Entity Authority rows computed from `score_and_findings` inputs. -/
def entityReqsOf (text : String) (internal_links ext_links schema_types : List String)
    (schema_objs : List JObj) (np ne na nc : Bool) (pt : String) : List Req :=
  entityRequirements
    (entitySignals text internal_links ext_links schema_types schema_objs np ne na nc pt)

/-- The schema object parsed from `orgBlock`. -/
def orgObjParsed : JObj :=
  JObj.cons "@context" (J.str "https://schema.org")
    (JObj.cons "@type" (J.str "Organization")
    (JObj.cons "name" (J.str "Acme ApS")
    (JObj.cons "url" (J.str "https://acme.dk")
    (JObj.cons "logo" (J.str "https://acme.dk/logo.png")
    (JObj.cons "telephone" (J.str "+45 12 34 56 78")
    (JObj.cons "sameAs" (J.arr (JArr.cons (J.str "https://www.facebook.com/acme")
      (JArr.cons (J.str "https://www.linkedin.com/company/acme") JArr.nil)))
      JObj.nil))))))

set_option maxRecDepth 40000 in
/-- C7 counterexample: the synthetic page around `orgBlock` (a complete
Organization JSON-LD block with name, url, logo, telephone and a two-element
sameAs list, no anchor links, empty visible text) leaves the social-proof
requirement "Min. 2 sociale profiler / sameAs links" unmet — `detect_social_links`
reads the page's external anchor links, never the sameAs values — and the
Entity Authority pillar scores strictly below
`10 - impactPoints(unmet requirements other than the business-entity and
social-proof rows)`, refuting the claimed bound. -/
theorem C7_counterexample :
    (flatten_schema_types (extract_jsonld [orgBlock])).2 = [orgObjParsed] ∧
    (objGet orgObjParsed "name").isSome = true ∧
    (objGet orgObjParsed "url").isSome = true ∧
    (objGet orgObjParsed "logo").isSome = true ∧
    (objGet orgObjParsed "telephone").isSome = true ∧
    objGet orgObjParsed "sameAs" =
      some (J.arr (JArr.cons (J.str "https://www.facebook.com/acme")
        (JArr.cons (J.str "https://www.linkedin.com/company/acme") JArr.nil))) ∧
    (jArrToList (JArr.cons (J.str "https://www.facebook.com/acme")
      (JArr.cons (J.str "https://www.linkedin.com/company/acme") JArr.nil))).length = 2 ∧
    ((⟨"Entity Authority", "Min. 2 sociale profiler / sameAs links", false,
        "Tilføj Facebook/LinkedIn/Instagram + evt. Trustpilot i sameAs.", 1.5⟩ : Req)
      ∈ entityRequirements orgPageSignals) ∧
    pillar_score (entityRequirements orgPageSignals) <
      10 - missingPoints ((entityRequirements orgPageSignals).filter
        (fun r => r.label ≠ "Business entity schema (Organization eller LocalBusiness)" ∧
          r.label ≠ "Min. 2 sociale profiler / sameAs links")) := by
  refine ⟨rfl, rfl, rfl, rfl, rfl, rfl, rfl, ?_, ?_⟩
  · have hsig : orgPageSignals =
        ⟨true, false, ["Organization"], true, false, false, false, [], false, false, false,
          false, "General Page", [], false, 0, false, false, 0, false, false, false, false,
          "", "", "", "", none, 200, false⟩ := rfl
    rw [hsig]
    exact List.mem_cons_of_mem _ (List.mem_cons_of_mem _ (List.mem_cons_of_mem _
      (List.mem_cons_of_mem _ (List.mem_cons_self _ _))))
  · have hsig : orgPageSignals =
        ⟨true, false, ["Organization"], true, false, false, false, [], false, false, false,
          false, "General Page", [], false, 0, false, false, 0, false, false, false, false,
          "", "", "", "", none, 200, false⟩ := rfl
    rw [hsig]
    have h1 : pillar_score (entityRequirements
        ⟨true, false, ["Organization"], true, false, false, false, [], false, false, false,
          false, "General Page", [], false, 0, false, false, 0, false, false, false, false,
          "", "", "", "", none, 200, false⟩) = 12/5 := by
      have hpt : (decide (("General Page" : String) = "Service Page")) = false := by decide
      norm_num [entityRequirements, pillar_score, missingPoints, clamp, min_def, max_def, hpt]
    have hfil : ((entityRequirements
        (⟨true, false, ["Organization"], true, false, false, false, [], false, false, false,
          false, "General Page", [], false, 0, false, false, 0, false, false, false, false,
          "", "", "", "", none, 200, false⟩ : ScoreSignals)).filter
        (fun r => r.label ≠ "Business entity schema (Organization eller LocalBusiness)" ∧
          r.label ≠ "Min. 2 sociale profiler / sameAs links")) =
        [⟨"Entity Authority", "Kontaktinfo synlig (telefon eller email)", true,
            "Vis telefon/email tydeligt (fx footer/kontaktsektion) og gerne i schema.", 1.0⟩,
          ⟨"Entity Authority", "Adresse/servicebase synlig", false,
            "Tilføj adresse eller tydelig base + serviceområde.", 1.0⟩,
          ⟨"Entity Authority", "CVR synlig", false,
            "Vis CVR i footer/kontakt (og gerne i schema).", 1.0⟩,
          ⟨"Entity Authority", "Om os-side findes (internt link)", false,
            "Tilføj eller link til /om, /om-os, /about-us.", 0.8⟩,
          ⟨"Entity Authority", "Kontakt-side findes (internt link)", false,
            "Tilføj eller link til /kontakt.", 0.8⟩,
          ⟨"Entity Authority", "Forfatter/Person attribution (artikler/guides)", false,
            "Tilføj forfatterboks + Person schema (navn, rolle, credentials, sameAs).", 2.5⟩] := rfl
    rw [h1, hfil]
    norm_num [missingPoints]

/-- C7 (amended): a page whose schema objects contain an
Organization/LocalBusiness-like object satisfies the business-entity
requirement, and the Entity Authority pillar scores at least
`10 - impactPoints(unmet requirements other than the business-entity row)`;
the social-proof requirement is satisfied exactly when the page's external
anchor links contain at least two recognized social links (JSON-LD `sameAs`
values play no role in it). -/
theorem C7_amended_org_entity_bound :
    ∀ (text : String) (internal_links ext_links schema_types : List String)
      (schema_objs : List JObj) (np ne na nc : Bool) (pt : String),
      (schema_find_org_like schema_objs).isSome = true →
      (∀ r ∈ entityReqsOf text internal_links ext_links schema_types schema_objs np ne na nc pt,
         r.label = "Business entity schema (Organization eller LocalBusiness)" →
           r.ok = true) ∧
      (2 ≤ (detect_social_links ext_links).length →
        ∀ r ∈ entityReqsOf text internal_links ext_links schema_types schema_objs np ne na nc pt,
          r.label = "Min. 2 sociale profiler / sameAs links" → r.ok = true) ∧
      10 - missingPoints
          ((entityReqsOf text internal_links ext_links schema_types schema_objs np ne na nc pt).filter
            (fun r => r.label ≠ "Business entity schema (Organization eller LocalBusiness)")) ≤
        pillar_score
          (entityReqsOf text internal_links ext_links schema_types schema_objs np ne na nc pt) := by
  intro text il el st so np ne na nc pt horg
  have hreq1 : ∀ r ∈ entityReqsOf text il el st so np ne na nc pt,
      r.label = "Business entity schema (Organization eller LocalBusiness)" → r.ok = true := by
    intro r hr hlab
    simp only [entityReqsOf, entityRequirements, List.mem_cons, List.not_mem_nil,
      or_false] at hr
    rcases hr with rfl | rfl | rfl | rfl | rfl | rfl | rfl | rfl
    · simp only [entitySignals]
      rw [horg]
      rfl
    · simp at hlab
    · simp at hlab
    · simp at hlab
    · simp at hlab
    · simp at hlab
    · simp at hlab
    · simp at hlab
  refine ⟨hreq1, ?_, ?_⟩
  · intro hsoc r hr hlab
    simp only [entityReqsOf, entityRequirements, List.mem_cons, List.not_mem_nil,
      or_false] at hr
    rcases hr with rfl | rfl | rfl | rfl | rfl | rfl | rfl | rfl
    · simp at hlab
    · simp at hlab
    · simp at hlab
    · simp at hlab
    · simp only [entitySignals]
      exact decide_eq_true hsoc
    · simp at hlab
    · simp at hlab
    · simp at hlab
  · have hall : ∀ r ∈ entityReqsOf text il el st so np ne na nc pt,
        (fun r : Req =>
          decide (r.label ≠ "Business entity schema (Organization eller LocalBusiness)")) r
            = false → r.ok = true := by
      intro r hr hfalse
      apply hreq1 r hr
      by_contra hne
      rw [decide_eq_false_iff_not] at hfalse
      exact hfalse hne
    rw [← missingPoints_filter_eq _ _ hall]
    exact pillar_score_ge _
      (fun r hr => le_of_lt (entityRequirements_pos _ r hr))

set_option maxRecDepth 40000 in
theorem C7_amended_witness :
    (∀ r ∈ entityReqsOf "" [] [] (flatten_schema_types (extract_jsonld [orgBlock])).1
        (flatten_schema_types (extract_jsonld [orgBlock])).2 true false false false
        "General Page",
        r.label = "Business entity schema (Organization eller LocalBusiness)" →
          r.ok = true) ∧
    (2 ≤ (detect_social_links []).length →
      ∀ r ∈ entityReqsOf "" [] [] (flatten_schema_types (extract_jsonld [orgBlock])).1
          (flatten_schema_types (extract_jsonld [orgBlock])).2 true false false false
          "General Page",
        r.label = "Min. 2 sociale profiler / sameAs links" → r.ok = true) ∧
    10 - missingPoints
        ((entityReqsOf "" [] [] (flatten_schema_types (extract_jsonld [orgBlock])).1
          (flatten_schema_types (extract_jsonld [orgBlock])).2 true false false false
          "General Page").filter
          (fun r => r.label ≠ "Business entity schema (Organization eller LocalBusiness)")) ≤
      pillar_score
        (entityReqsOf "" [] [] (flatten_schema_types (extract_jsonld [orgBlock])).1
          (flatten_schema_types (extract_jsonld [orgBlock])).2 true false false false
          "General Page") :=
  C7_amended_org_entity_bound "" [] [] (flatten_schema_types (extract_jsonld [orgBlock])).1
    (flatten_schema_types (extract_jsonld [orgBlock])).2 true false false false
    "General Page" (by rfl)
